import Mathlib

/-!
# Verification of the GameTok multiplayer match server

Shallow embedding of the multiplayer subsystem of `src/index.js`
(the `initMultiplayer` socket server): game rule registry, rooms,
sockets, the per-game move processors and every protocol event
handler, modelled as a deterministic step function over an explicit
server state.  JavaScript `Map`s are association lists in insertion
order (matching `Map` iteration order); JS `null`/`undefined`
distinctions that the code observes are kept via the `Cell` type;
fresh uuid-derived room ids are modelled by a counter (uuid slices are
assumed collision-free).
-/

set_option maxHeartbeats 1000000

namespace GameTok

/-! ## Association-list maps (JS `Map` / object semantics) -/

/-- `Map.get` / object property read: first entry with the key. -/
def mapGet {κ α : Type} [DecidableEq κ] : List (κ × α) → κ → Option α
  | [], _ => none
  | (k', v) :: rest, k => if k' = k then some v else mapGet rest k

/-- `Map.set` / object property write: update in place keeping insertion
order, append when absent (exactly JS `Map.set` and `obj[k] = v`). -/
def mapSet {κ α : Type} [DecidableEq κ] : List (κ × α) → κ → α → List (κ × α)
  | [], k, v => [(k, v)]
  | (k', v') :: rest, k, v =>
    if k' = k then (k, v) :: rest else (k', v') :: mapSet rest k v

/-- `Map.delete`.  Keys are unique in every map the server builds, so
removing every occurrence coincides with removing the one entry. -/
def mapDel {κ α : Type} [DecidableEq κ] : List (κ × α) → κ → List (κ × α)
  | [], _ => []
  | (k', v') :: rest, k =>
    if k' = k then mapDel rest k else (k', v') :: mapDel rest k

/-! ## JS value helpers -/

/-- JS truthiness of a string (`''` is falsy). -/
def truthyStr (s : String) : Bool := s ≠ ""

/-- JS truthiness of a possibly-`undefined` string. -/
def truthyOpt : Option String → Bool
  | none => false
  | some s => truthyStr s

/-- JS `a > b` where either side may be `undefined` (`NaN` comparisons
are false). -/
def jsGtOpt : Option Int → Option Int → Bool
  | some a, some b => b < a
  | _, _ => false

/-- JS `a >= b` where the left side may be `undefined`. -/
def jsGeOpt : Option Int → Int → Bool
  | some a, b => b ≤ a
  | none, _ => false

/-- JS `x || d` for an optional string (`''` falls through to `d`). -/
def jsOrStr : Option String → String → String
  | some s, d => if s = "" then d else s
  | none, d => d

/-! ## Game rule registry -/

/-- One entry of `GAME_CONFIGS`. -/
structure GameConfig where
  minPlayers : Nat
  maxPlayers : Nat
  turnBased : Bool := false
  realtime : Bool := false
  scoreCompetition : Bool := false
  timeLimit : Option Nat := none
deriving DecidableEq, Repr

/-- A turn-based entry of the registry. -/
def turnCfg : GameConfig := { minPlayers := 2, maxPlayers := 2, turnBased := true }

/-- A score-competition entry of the registry (optional time limit). -/
def scoreCfg (tl : Option Nat := none) : GameConfig :=
  { minPlayers := 2, maxPlayers := 2, scoreCompetition := true, timeLimit := tl }

/-- The `GAME_CONFIGS` table of `src/index.js`. -/
def GAME_CONFIGS : String → Option GameConfig
  | "tic-tac-toe" => some turnCfg
  | "connect4" => some turnCfg
  | "chess" => some turnCfg
  | "rock-paper-scissors" => some turnCfg
  | "pong" => some { minPlayers := 2, maxPlayers := 2, turnBased := false, realtime := true }
  | "tetris" => some (scoreCfg (some 120))
  | "2048" => some (scoreCfg (some 180))
  | "snake" => some (scoreCfg)
  | "flappy-bird" => some (scoreCfg)
  | "pacman" => some (scoreCfg)
  | "fruit-slicer" => some (scoreCfg (some 60))
  | "piano-tiles" => some (scoreCfg)
  | "doodle-jump" => some (scoreCfg)
  | "geometry-dash" => some (scoreCfg)
  | "endless-runner" => some (scoreCfg)
  | "crossy-road" => some (scoreCfg)
  | "breakout" => some (scoreCfg)
  | "ball-bounce" => some (scoreCfg)
  | "whack-a-mole" => some (scoreCfg (some 30))
  | "aim-trainer" => some (scoreCfg (some 30))
  | "reaction-time" => some (scoreCfg)
  | "color-match" => some (scoreCfg (some 60))
  | "memory-match" => some (scoreCfg)
  | "tap-tap-dash" => some (scoreCfg)
  | "number-tap" => some (scoreCfg (some 30))
  | "bubble-pop" => some (scoreCfg (some 60))
  | "simon-says" => some (scoreCfg)
  | "basketball" => some (scoreCfg (some 60))
  | "golf-putt" => some (scoreCfg)
  | "snake-io" => some (scoreCfg)
  | "asteroids" => some (scoreCfg)
  | "space-invaders" => some (scoreCfg)
  | "missile-game" => some (scoreCfg)
  | "hexgl" => some (scoreCfg)
  | "racer" => some (scoreCfg)
  | "run3" => some (scoreCfg)
  | "clumsy-bird" => some (scoreCfg)
  | "hextris" => some (scoreCfg)
  | "tower-game" => some (scoreCfg)
  | _ => none

/-! ## Boards, cells and game state -/

/-- A board cell as the JS code observes it: `null` (empty), a mark
string, or `undefined` (out-of-range read, or a mark written for a
player missing from `symbols`).  `undefined !== null`, so an `undef`
cell counts as occupied, while it is falsy for win detection. -/
inductive Cell
  | null
  | undef
  | mark (s : String)
deriving DecidableEq, Repr

/-- JS truthiness of a cell value. -/
def truthyCell : Cell → Bool
  | Cell.null => false
  | Cell.undef => false
  | Cell.mark s => s ≠ ""

/-- The value `state.symbols[playerId]` written into a board cell:
`undefined` when the key is missing. -/
def cellOfLookup : Option String → Cell
  | none => Cell.undef
  | some s => Cell.mark s

/-- `room.gameState`, a tagged form of the per-game untyped JS object.
`pong`'s floating-point ball state is not read by any handler and is
left opaque; `emptyObj` is the default `{}`. -/
inductive GameState
  | score (scores : List (String × Int)) (finished : List (String × Bool))
  | ttt (board : List Cell) (symbols : List (String × String))
  | c4 (board : List (List Cell)) (symbols : List (String × String))
  | rps (choices : List (String × String)) (round : Nat)
      (scores : List (String × Int)) (maxRounds : Nat)
  | chess (fen : String) (colors : List (String × String)) (moves : List String)
  | pong
  | emptyObj
deriving DecidableEq, Repr

/-- One slot of `room.players`. -/
structure Player where
  id : String
  ready : Bool
deriving DecidableEq, Repr

/-- `state` field values (`ROOM_STATES`). -/
inductive RoomState
  | waiting
  | playing
  | finished
deriving DecidableEq, Repr

/-- A room, as in `room:create` / matchmaking.  `createdAt` is only
diagnostic in the source and is omitted. -/
structure Room where
  id : Nat
  gameId : String
  hostId : String
  players : List Player
  state : RoomState
  isPrivate : Bool
  gameState : Option GameState
  currentTurn : Option String
  config : GameConfig
deriving DecidableEq, Repr

/-- Connection-local fields of a socket: `socket.userId`,
`socket.currentRoom`, and its socket.io room memberships
(`socket.join`/`socket.leave`). -/
structure Socket where
  userId : Option String := none
  currentRoom : Option Nat := none
  rooms : List Nat := []
deriving DecidableEq, Repr

/-- The whole mutable server state: the module-level maps plus every
connected socket.  `nextRoomId` generates fresh room ids (standing in
for `uuidv4().slice(0, 8)`, assumed collision-free). -/
structure ServerState where
  gameRooms : List (Nat × Room) := []
  sockets : List (String × Socket) := []
  socketPlayers : List (String × String) := []
  playerSockets : List (String × String) := []
  nextRoomId : Nat := 0
deriving DecidableEq, Repr

/-- The empty server at startup. -/
def initialState : ServerState := {}

/-! ## Wire protocol -/

/-- The payload fields of outbound events that the verification
inspects (full room snapshots from `sanitizeRoom` carry no information
beyond the room itself and are elided). -/
inductive Payload
  | errorMsg (message : String)
  | authSuccess (userId : String)
  | roomCreated
  | playerJoined (playerId : String)
  | playerLeft (playerId : Option String)
  | roomUpdated
  | gameStart
  | gameStateEv (currentTurn : Option String)
  | gameOver (winner : Option String) (reason : Option String)
  | peerUpdate (playerId : Option String)
  | opponentScore (score : Int) (playerId : Option String)
  | opponentFinished (score : Int) (playerId : Option String)
  | matchmakingWaiting
  | inviteReceived (fromUserId : String) (gameId : String) (roomId : Option Nat)
deriving DecidableEq, Repr

/-- An outbound emission: `socket.emit`, `io.to(room).emit`, or
`socket.to(room).emit` (room broadcast excluding the sender). -/
inductive Emission
  | direct (sid : String) (name : String) (p : Payload)
  | toRoom (roomId : Nat) (name : String) (p : Payload)
  | toRoomExcept (roomId : Nat) (sid : String) (name : String) (p : Payload)
deriving DecidableEq, Repr

/-- The `move` payload of `game:move`; each processor reads only its
own field. -/
structure MoveMsg where
  position : Int := 0
  column : Int := 0
  choice : String := ""
deriving DecidableEq, Repr

/-- The result object of the move processors. -/
structure MoveResult where
  valid : Bool
  newState : Option GameState := none
  gameOver : Bool := false
  winner : Option String := none
  reason : Option String := none
  error : Option String := none
deriving DecidableEq, Repr

/-- Inbound protocol events (together with the built-in connect /
disconnect transport events). -/
inductive ClientEvent
  | connect
  | auth (userId : Option String) (token : String)
  | roomCreate (gameId : String) (isPrivate : Bool)
  | roomJoin (roomId : Nat)
  | roomLeave
  | roomReady (ready : Bool)
  | gameMove (move : MoveMsg)
  | gameUpdate
  | matchmakingFind (gameId : String)
  | matchmakingCancel
  | competitionScore (score : Int)
  | competitionFinished (finalScore : Int)
  | inviteSend (friendId : String) (gameId : String)
  | disconnect
deriving DecidableEq, Repr

/-! ## Tic-tac-toe (`processTicTacToeMove`, `checkTicTacToeWinner`) -/

/-- The 8 winning lines scanned by `checkTicTacToeWinner`, in source
order: rows, columns, diagonals. -/
def tttLines : List (Nat × Nat × Nat) :=
  [(0, 1, 2), (3, 4, 5), (6, 7, 8),
   (0, 3, 6), (1, 4, 7), (2, 5, 8),
   (0, 4, 8), (2, 4, 6)]

/-- The loop of `checkTicTacToeWinner`: return the first line whose
three cells are truthy-equal. -/
def scanTttLines (board : List Cell) : List (Nat × Nat × Nat) → Cell
  | [] => Cell.null
  | (a, b, c) :: rest =>
    let ba := board.getD a Cell.undef
    if truthyCell ba = true ∧ ba = board.getD b Cell.undef ∧ ba = board.getD c Cell.undef
    then ba
    else scanTttLines board rest

/-- `checkTicTacToeWinner(board)`: the winning mark, or `null`. -/
def checkTicTacToeWinner (board : List Cell) : Cell :=
  scanTttLines board tttLines

/-- `processTicTacToeMove(state, playerId, move, players)`. -/
def processTicTacToeMove (state : GameState) (playerId : String) (move : MoveMsg)
    (_players : List Player) : MoveResult :=
  match state with
  | GameState.ttt board symbols =>
    let position := move.position
    if position < 0 ∨ 8 < position ∨ board.getD position.toNat Cell.undef ≠ Cell.null then
      { valid := false, error := some "Invalid position" }
    else
      let newBoard := board.set position.toNat (cellOfLookup (mapGet symbols playerId))
      let newState := GameState.ttt newBoard symbols
      let winner := checkTicTacToeWinner newBoard
      if truthyCell winner then
        let winnerId := (symbols.find? fun kv => Cell.mark kv.2 = winner).map (·.1)
        { valid := true, newState := some newState, gameOver := true,
          winner := winnerId, reason := some "win" }
      else if newBoard.all fun cell => cell ≠ Cell.null then
        { valid := true, newState := some newState, gameOver := true,
          winner := none, reason := some "draw" }
      else
        { valid := true, newState := some newState }
  -- unreachable: a tic-tac-toe room's gameState is always the ttt variant
  | _ => { valid := false, error := none }

/-! ## Connect-four (`processConnect4Move`, `checkConnect4Winner`) -/

/-- `board[r][c]` (callers bound-check `r`, `c` first, as the JS does). -/
def cellAt (board : List (List Cell)) (r c : Int) : Cell :=
  (board.getD r.toNat []).getD c.toNat Cell.undef

/-- The four axis directions scanned by `checkConnect4Winner`. -/
def c4Directions : List (Int × Int) := [(0, 1), (1, 0), (1, 1), (1, -1)]

/-- One direction-scanning loop of `checkConnect4Winner`: count
consecutive matching in-bounds cells at offsets `i ∈ is` (is = `[1,2,3]`),
stopping at the first mismatch. -/
def c4Run (board : List (List Cell)) (row col dr dc : Int) (symbol : Cell) :
    List Int → Nat
  | [] => 0
  | i :: rest =>
    let r := row + dr * i
    let c := col + dc * i
    if 0 ≤ r ∧ r < 6 ∧ 0 ≤ c ∧ c < 7 ∧ cellAt board r c = symbol then
      1 + c4Run board row col dr dc symbol rest
    else 0

/-- `checkConnect4Winner(board, row, col, symbol)`: some direction has
a run of at least 4 through the placed cell. -/
def checkConnect4Winner (board : List (List Cell)) (row col : Int) (symbol : Cell) : Bool :=
  c4Directions.any fun d =>
    4 ≤ 1 + c4Run board row col d.1 d.2 symbol [1, 2, 3]
          + c4Run board row col (-d.1) (-d.2) symbol [1, 2, 3]

/-- The falling-token scan of `processConnect4Move`: first empty row
from the bottom (`r = 5` down to `0`), `none` when the column is full
(JS sentinel `-1`). -/
def findDropRowAux (board : List (List Cell)) (col : Nat) : List Nat → Option Nat
  | [] => none
  | r :: rest =>
    if (board.getD r []).getD col Cell.undef = Cell.null then some r
    else findDropRowAux board col rest

/-- The lowest empty row of a column. -/
def findDropRow (board : List (List Cell)) (col : Int) : Option Nat :=
  findDropRowAux board col.toNat [5, 4, 3, 2, 1, 0]

/-- `newBoard` construction: copy the board and write one cell. -/
def setCell (board : List (List Cell)) (r c : Nat) (v : Cell) : List (List Cell) :=
  board.set r ((board.getD r []).set c v)

/-- `processConnect4Move(state, playerId, move, players)`. -/
def processConnect4Move (state : GameState) (playerId : String) (move : MoveMsg)
    (_players : List Player) : MoveResult :=
  match state with
  | GameState.c4 board symbols =>
    let column := move.column
    if column < 0 ∨ 6 < column then
      { valid := false, error := some "Invalid column" }
    else
      match findDropRow board column with
      | none => { valid := false, error := some "Column is full" }
      | some row =>
        let sym := cellOfLookup (mapGet symbols playerId)
        let newBoard := setCell board row column.toNat sym
        let newState := GameState.c4 newBoard symbols
        if checkConnect4Winner newBoard (Int.ofNat row) column sym then
          { valid := true, newState := some newState, gameOver := true,
            winner := some playerId, reason := some "win" }
        else if (newBoard.getD 0 []).all fun cell => cell ≠ Cell.null then
          { valid := true, newState := some newState, gameOver := true,
            winner := none, reason := some "draw" }
        else
          { valid := true, newState := some newState }
  -- unreachable: a connect4 room's gameState is always the c4 variant
  | _ => { valid := false, error := none }

/-- The winner-by-score comparison shared by the RPS final round and
`competition:finished`: `a` on strictly higher score, `b` on strictly
higher score, `null` otherwise (including missing entries). -/
def scoreWinner (scores : List (String × Int)) (a b : String) : Option String :=
  if jsGtOpt (mapGet scores a) (mapGet scores b) then some a
  else if jsGtOpt (mapGet scores b) (mapGet scores a) then some b
  else none

/-! ## Rock-paper-scissors (`processRPSMove`) -/

/-- `processRPSMove(state, playerId, move, players)`. -/
def processRPSMove (state : GameState) (playerId : String) (move : MoveMsg)
    (players : List Player) : MoveResult :=
  match state with
  | GameState.rps choices round scores maxRounds =>
    let choice := move.choice
    if ¬ (choice = "rock" ∨ choice = "paper" ∨ choice = "scissors") then
      { valid := false, error := some "Invalid choice" }
    else
      let choices1 := mapSet choices playerId choice
      if choices1.length = 2 then
        match players with
        | p1 :: p2 :: _ =>
          let c1 := mapGet choices1 p1.id
          let c2 := mapGet choices1 p2.id
          let roundWinner : Option String :=
            if c1 ≠ c2 then
              if (c1 = some "rock" ∧ c2 = some "scissors")
                  ∨ (c1 = some "paper" ∧ c2 = some "rock")
                  ∨ (c1 = some "scissors" ∧ c2 = some "paper") then
                some p1.id
              else
                some p2.id
            else none
          -- `newState.scores[roundWinner]++` (the key always exists at
          -- reachable states; a missing key defaults to 0 here where JS
          -- would produce NaN)
          let scores1 := match roundWinner with
            | some rw => mapSet scores rw ((mapGet scores rw).getD 0 + 1)
            | none => scores
          let maxScore : Int := ((maxRounds + 1) / 2 : Nat)
          if jsGeOpt (mapGet scores1 p1.id) maxScore then
            { valid := true,
              newState := some (GameState.rps choices1 round scores1 maxRounds),
              gameOver := true, winner := some p1.id, reason := some "win" }
          else if jsGeOpt (mapGet scores1 p2.id) maxScore then
            { valid := true,
              newState := some (GameState.rps choices1 round scores1 maxRounds),
              gameOver := true, winner := some p2.id, reason := some "win" }
          else if maxRounds ≤ round then
            let winner : Option String := scoreWinner scores1 p1.id p2.id
            { valid := true,
              newState := some (GameState.rps choices1 round scores1 maxRounds),
              gameOver := true, winner := winner,
              reason := some (if winner.isSome then "win" else "draw") }
          else
            { valid := true,
              newState := some (GameState.rps [] (round + 1) scores1 maxRounds) }
        -- unreachable: play only starts with at least two players
        | _ => { valid := false, error := none }
      else
        { valid := true,
          newState := some (GameState.rps choices1 round scores maxRounds) }
  -- unreachable: an RPS room's gameState is always the rps variant
  | _ => { valid := false, error := none }

/-! ## Game state construction and dispatch -/

/-- `initializeGameState(gameId, players, config)`.  Every call site
guarantees at least `minPlayers = 2` players (the JS would throw on a
shorter list). -/
def initGameState (gameId : String) (players : List Player) (config : GameConfig) :
    GameState :=
  match players with
  | p0 :: p1 :: _ =>
    if config.scoreCompetition then
      GameState.score
        (mapSet (mapSet [] p0.id (0 : Int)) p1.id 0)
        (mapSet (mapSet [] p0.id false) p1.id false)
    else
      match gameId with
      | "tic-tac-toe" =>
        GameState.ttt (List.replicate 9 Cell.null)
          (mapSet (mapSet [] p0.id "X") p1.id "O")
      | "connect4" =>
        GameState.c4 (List.replicate 6 (List.replicate 7 Cell.null))
          (mapSet (mapSet [] p0.id "red") p1.id "yellow")
      | "rock-paper-scissors" =>
        GameState.rps [] 1 (mapSet (mapSet [] p0.id (0 : Int)) p1.id 0) 3
      | "chess" =>
        GameState.chess "rnbqkbnr/pppppppp/8/8/8/8/PPPPPPPP/RNBQKBNR w KQkq - 0 1"
          (mapSet (mapSet [] p0.id "white") p1.id "black") []
      | "pong" => GameState.pong
      | _ => GameState.emptyObj
  | _ => GameState.emptyObj

/-- `processGameMove(room, playerId, move)`: dispatch on `gameId`;
unknown games echo the state back as a valid move. -/
def processGameMove (room : Room) (playerId : String) (move : MoveMsg) : MoveResult :=
  match room.gameState with
  -- unreachable: `game:move` is handled only while playing, and
  -- `startGame` always sets a gameState
  | none => { valid := true, newState := none }
  | some gs =>
    match room.gameId with
    | "tic-tac-toe" => processTicTacToeMove gs playerId move room.players
    | "connect4" => processConnect4Move gs playerId move room.players
    | "rock-paper-scissors" => processRPSMove gs playerId move room.players
    | _ => { valid := true, newState := some gs }

/-! ## Shared room helpers -/

/-- `socket.join(roomId)`. -/
def joinSocketRoom (rooms : List Nat) (roomId : Nat) : List Nat :=
  if roomId ∈ rooms then rooms else rooms ++ [roomId]

/-- `startGame(room, io)`: enter `playing`, build the game state, seat
the first player (or nobody for score competitions), announce
`game:start`. -/
def startGame (room : Room) : Room × List Emission :=
  let room' := { room with
    state := RoomState.playing
    gameState := some (initGameState room.gameId room.players room.config)
    currentTurn :=
      if room.config.scoreCompetition then none
      else room.players.head?.map Player.id }
  (room', [Emission.toRoom room.id "game:start" Payload.gameStart])

/-- Host reassignment at the end of `handleLeaveRoom`. -/
def reassignHost (room : Room) (leaver : Option String) : Room :=
  if leaver = some room.hostId then
    match room.players.head? with
    | some p => { room with hostId := p.id }
    | none => room
  else room

/-- `handleLeaveRoom(socket, io)`. -/
def handleLeaveRoom (st : ServerState) (sid : String) (sock : Socket) :
    ServerState × List Emission :=
  match sock.currentRoom with
  | none => (st, [])
  | some roomId =>
    match mapGet st.gameRooms roomId with
    | none => (st, [])
    | some room =>
      let players' := room.players.filter fun p => sock.userId ≠ some p.id
      let sock' := { sock with currentRoom := none, rooms := sock.rooms.erase roomId }
      let st1 := { st with sockets := mapSet st.sockets sid sock' }
      if players'.isEmpty then
        ({ st1 with gameRooms := mapDel st1.gameRooms roomId }, [])
      else
        let e1 := Emission.toRoom roomId "room:playerLeft" (Payload.playerLeft sock.userId)
        if room.state = RoomState.playing then
          let room2 := reassignHost
            { room with players := players', state := RoomState.finished } sock.userId
          ({ st1 with gameRooms := mapSet st1.gameRooms roomId room2 },
           [e1, Emission.toRoom roomId "game:over"
                  (Payload.gameOver (players'.head?.map Player.id) (some "opponent_left"))])
        else
          let room2 := reassignHost { room with players := players' } sock.userId
          ({ st1 with gameRooms := mapSet st1.gameRooms roomId room2 }, [e1])

/-! ## Event handlers -/

/-- The `auth` handler: bind a truthy identity, else do nothing at all. -/
def handleAuth (st : ServerState) (sid : String) (userId : Option String) :
    ServerState × List Emission :=
  match mapGet st.sockets sid with
  | none => (st, [])
  | some sock =>
    match userId with
    | some u =>
      if truthyStr u then
        ({ st with
            socketPlayers := mapSet st.socketPlayers sid u
            playerSockets := mapSet st.playerSockets u sid
            sockets := mapSet st.sockets sid { sock with userId := some u } },
         [Emission.direct sid "auth:success" (Payload.authSuccess u)])
      else (st, [])
    | none => (st, [])

/-- The `room:create` handler. -/
def handleRoomCreate (st : ServerState) (sid : String) (gameId : String)
    (isPrivate : Bool) : ServerState × List Emission :=
  match mapGet st.sockets sid with
  | none => (st, [])
  | some sock =>
    if ¬ truthyOpt sock.userId then
      (st, [Emission.direct sid "error" (Payload.errorMsg "Not authenticated")])
    else
      match GAME_CONFIGS gameId with
      | none => (st, [Emission.direct sid "error" (Payload.errorMsg "Invalid game type")])
      | some config =>
        let u := sock.userId.getD ""
        let roomId := st.nextRoomId
        let room : Room :=
          { id := roomId, gameId := gameId, hostId := u
            players := [{ id := u, ready := false }]
            state := RoomState.waiting, isPrivate := isPrivate
            gameState := none, currentTurn := none, config := config }
        ({ st with
            gameRooms := st.gameRooms ++ [(roomId, room)]
            sockets := mapSet st.sockets sid
              { sock with currentRoom := some roomId
                          rooms := joinSocketRoom sock.rooms roomId }
            nextRoomId := roomId + 1 },
         [Emission.direct sid "room:created" Payload.roomCreated])

/-- The `room:join` handler. -/
def handleRoomJoin (st : ServerState) (sid : String) (roomId : Nat) :
    ServerState × List Emission :=
  match mapGet st.sockets sid with
  | none => (st, [])
  | some sock =>
    if ¬ truthyOpt sock.userId then
      (st, [Emission.direct sid "error" (Payload.errorMsg "Not authenticated")])
    else
      let u := sock.userId.getD ""
      match mapGet st.gameRooms roomId with
      | none => (st, [Emission.direct sid "error" (Payload.errorMsg "Room not found")])
      | some room =>
        if room.state ≠ RoomState.waiting then
          (st, [Emission.direct sid "error" (Payload.errorMsg "Game already in progress")])
        else if room.config.maxPlayers ≤ room.players.length then
          (st, [Emission.direct sid "error" (Payload.errorMsg "Room is full")])
        else if (room.players.find? fun p => p.id = u).isSome then
          (st, [Emission.direct sid "error" (Payload.errorMsg "Already in this room")])
        else
          let room' := { room with players := room.players ++ [{ id := u, ready := false }] }
          ({ st with
              gameRooms := mapSet st.gameRooms roomId room'
              sockets := mapSet st.sockets sid
                { sock with currentRoom := some roomId
                            rooms := joinSocketRoom sock.rooms roomId } },
           [Emission.toRoom roomId "room:playerJoined" (Payload.playerJoined u)])

/-- `player.ready = ready` on the first slot found by
`room.players.find(p => p.id === socket.userId)`. -/
def setReadyFirst (u : String) (ready : Bool) : List Player → List Player
  | [] => []
  | p :: rest =>
    if p.id = u then { p with ready := ready } :: rest
    else p :: setReadyFirst u ready rest

/-- The `room:ready` handler: update readiness, broadcast, and start
the game when all players are ready and quorum is met (no room-state
guard exists in the source). -/
def handleRoomReady (st : ServerState) (sid : String) (ready : Bool) :
    ServerState × List Emission :=
  match mapGet st.sockets sid with
  | none => (st, [])
  | some sock =>
    match sock.currentRoom with
    | none => (st, [])
    | some roomId =>
      match mapGet st.gameRooms roomId with
      | none => (st, [])
      | some room =>
        match sock.userId with
        | none => (st, [])
        | some u =>
          if (room.players.find? fun p => p.id = u).isSome then
            let room1 := { room with players := setReadyFirst u ready room.players }
            let e1 := Emission.toRoom roomId "room:updated" Payload.roomUpdated
            if (room1.players.all fun p => p.ready)
                ∧ room.config.minPlayers ≤ room1.players.length then
              let (room2, es) := startGame room1
              ({ st with gameRooms := mapSet st.gameRooms roomId room2 }, e1 :: es)
            else
              ({ st with gameRooms := mapSet st.gameRooms roomId room1 }, [e1])
          else (st, [])

/-- `room.players.findIndex(p => p.id === playerId)` (JS `-1` on miss). -/
def jsFindIndexAux (u : String) : List Player → Int → Int
  | [], _ => -1
  | p :: rest, i => if p.id = u then i else jsFindIndexAux u rest (i + 1)

/-- The JS `findIndex` over player slots. -/
def jsFindIndex (players : List Player) (u : String) : Int :=
  jsFindIndexAux u players 0

/-- The `game:move` handler. -/
def handleGameMove (st : ServerState) (sid : String) (move : MoveMsg) :
    ServerState × List Emission :=
  match mapGet st.sockets sid with
  | none => (st, [])
  | some sock =>
    match sock.currentRoom with
    | none => (st, [])
    | some roomId =>
      match mapGet st.gameRooms roomId with
      | none => (st, [])
      | some room =>
        if room.state ≠ RoomState.playing then (st, [])
        else if room.config.turnBased ∧ room.currentTurn ≠ sock.userId then
          (st, [Emission.direct sid "error" (Payload.errorMsg "Not your turn")])
        else
          -- socket.userId is always bound here at reachable states; ""
          -- stands in for JS undefined as a key matching no player id
          let playerId := sock.userId.getD ""
          let result := processGameMove room playerId move
          if result.valid then
            let room1 := { room with gameState := result.newState }
            let room2 :=
              if room.config.turnBased then
                let ci := jsFindIndex room.players playerId
                let ni := ((ci + 1).emod (room.players.length : Int)).toNat
                let nextP := room.players.getD ni (Player.mk "" false)
                { room1 with currentTurn := some nextP.id }
              else room1
            let e1 := Emission.toRoom roomId "game:state" (Payload.gameStateEv room2.currentTurn)
            if result.gameOver then
              let room3 := { room2 with state := RoomState.finished }
              ({ st with gameRooms := mapSet st.gameRooms roomId room3 },
               [e1, Emission.toRoom roomId "game:over"
                      (Payload.gameOver result.winner result.reason)])
            else
              ({ st with gameRooms := mapSet st.gameRooms roomId room2 }, [e1])
          else
            (st, [Emission.direct sid "error"
                    (Payload.errorMsg (jsOrStr result.error "Invalid move"))])

/-- The `game:update` handler: pure relay to everyone but the sender. -/
def handleGameUpdate (st : ServerState) (sid : String) :
    ServerState × List Emission :=
  match mapGet st.sockets sid with
  | none => (st, [])
  | some sock =>
    match sock.currentRoom with
    | none => (st, [])
    | some roomId =>
      match mapGet st.gameRooms roomId with
      | none => (st, [])
      | some room =>
        if room.state ≠ RoomState.playing then (st, [])
        else
          (st, [Emission.toRoomExcept roomId sid "game:peerUpdate"
                  (Payload.peerUpdate sock.userId)])

/-- The matchmaking scan over `gameRooms` in insertion order. -/
def matchablePred (gameId : String) (room : Room) : Bool :=
  room.gameId = gameId ∧ room.isPrivate = false ∧ room.state = RoomState.waiting
    ∧ room.players.length < room.config.maxPlayers

/-- First joinable public waiting room for a game. -/
def findMatchRoom (rooms : List (Nat × Room)) (gameId : String) : Option (Nat × Room) :=
  rooms.find? fun kv => matchablePred gameId kv.2

/-- The `matchmaking:find` handler. -/
def handleMatchmakingFind (st : ServerState) (sid : String) (gameId : String) :
    ServerState × List Emission :=
  match mapGet st.sockets sid with
  | none => (st, [])
  | some sock =>
    if ¬ truthyOpt sock.userId then
      (st, [Emission.direct sid "error" (Payload.errorMsg "Not authenticated")])
    else
      let u := sock.userId.getD ""
      match findMatchRoom st.gameRooms gameId with
      | some (roomId, room) =>
        let room1 := { room with players := room.players ++ [{ id := u, ready := true }] }
        let st1 := { st with
          gameRooms := mapSet st.gameRooms roomId room1
          sockets := mapSet st.sockets sid
            { sock with currentRoom := some roomId
                        rooms := joinSocketRoom sock.rooms roomId } }
        let e1 := Emission.toRoom roomId "room:playerJoined" (Payload.playerJoined u)
        if room.config.minPlayers ≤ room1.players.length then
          let room2 := { room1 with players := room1.players.map fun p => { p with ready := true } }
          let (room3, es) := startGame room2
          ({ st1 with gameRooms := mapSet st1.gameRooms roomId room3 }, e1 :: es)
        else
          (st1, [e1])
      | none =>
        match GAME_CONFIGS gameId with
        | none => (st, [Emission.direct sid "error" (Payload.errorMsg "Invalid game type")])
        | some config =>
          let roomId := st.nextRoomId
          let room : Room :=
            { id := roomId, gameId := gameId, hostId := u
              players := [{ id := u, ready := true }]
              state := RoomState.waiting, isPrivate := false
              gameState := none, currentTurn := none, config := config }
          ({ st with
              gameRooms := st.gameRooms ++ [(roomId, room)]
              sockets := mapSet st.sockets sid
                { sock with currentRoom := some roomId
                            rooms := joinSocketRoom sock.rooms roomId }
              nextRoomId := roomId + 1 },
           [Emission.direct sid "matchmaking:waiting" Payload.matchmakingWaiting])

/-- The `competition:score` handler. -/
def handleCompetitionScore (st : ServerState) (sid : String) (score : Int) :
    ServerState × List Emission :=
  match mapGet st.sockets sid with
  | none => (st, [])
  | some sock =>
    match sock.currentRoom with
    | none => (st, [])
    | some roomId =>
      match mapGet st.gameRooms roomId with
      | none => (st, [])
      | some room =>
        if room.state ≠ RoomState.playing then (st, [])
        else if room.config.scoreCompetition ≠ true then (st, [])
        else
          match room.gameState with
          | some (GameState.score scores fin) =>
            let u := sock.userId.getD ""
            let room1 := { room with
              gameState := some (GameState.score (mapSet scores u score) fin) }
            ({ st with gameRooms := mapSet st.gameRooms roomId room1 },
             [Emission.toRoomExcept roomId sid "competition:opponentScore"
                (Payload.opponentScore score sock.userId)])
          -- unreachable: a playing score-competition room always holds
          -- the score variant (the JS would throw here)
          | _ => (st, [])

/-- The `competition:finished` handler. -/
def handleCompetitionFinished (st : ServerState) (sid : String) (finalScore : Int) :
    ServerState × List Emission :=
  match mapGet st.sockets sid with
  | none => (st, [])
  | some sock =>
    match sock.currentRoom with
    | none => (st, [])
    | some roomId =>
      match mapGet st.gameRooms roomId with
      | none => (st, [])
      | some room =>
        if room.state ≠ RoomState.playing then (st, [])
        else if room.config.scoreCompetition ≠ true then (st, [])
        else
          match room.gameState with
          | some (GameState.score scores fin) =>
            let u := sock.userId.getD ""
            let scores1 := mapSet scores u finalScore
            let fin1 := mapSet fin u true
            let e1 := Emission.toRoomExcept roomId sid "competition:opponentFinished"
                        (Payload.opponentFinished finalScore sock.userId)
            let gs1 := GameState.score scores1 fin1
            if room.players.all fun p => (mapGet fin1 p.id).getD false then
              match room.players with
              | p1 :: p2 :: _ =>
                let winner : Option String := scoreWinner scores1 p1.id p2.id
                let room1 := { room with gameState := some gs1, state := RoomState.finished }
                ({ st with gameRooms := mapSet st.gameRooms roomId room1 },
                 [e1, Emission.toRoom roomId "game:over"
                        (Payload.gameOver winner
                          (some (if winner.isSome then "win" else "draw")))])
              -- unreachable: the JS destructuring `[p1, p2]` would throw
              -- after the mutation and the relay emission
              | _ =>
                let room1 := { room with gameState := some gs1 }
                ({ st with gameRooms := mapSet st.gameRooms roomId room1 }, [e1])
            else
              let room1 := { room with gameState := some gs1 }
              ({ st with gameRooms := mapSet st.gameRooms roomId room1 }, [e1])
          -- unreachable: a playing score-competition room always holds
          -- the score variant (the JS would throw here)
          | _ => (st, [])

/-- The `invite:send` handler. -/
def handleInviteSend (st : ServerState) (sid : String) (friendId gameId : String) :
    ServerState × List Emission :=
  match mapGet st.sockets sid with
  | none => (st, [])
  | some sock =>
    if ¬ truthyOpt sock.userId then (st, [])
    else
      match mapGet st.playerSockets friendId with
      | none => (st, [])
      | some fsid =>
        (st, [Emission.direct fsid "invite:received"
                (Payload.inviteReceived (sock.userId.getD "") gameId sock.currentRoom)])

/-- The `disconnect` handler: leave the room, then drop the identity
binding and the socket itself. -/
def handleDisconnect (st : ServerState) (sid : String) :
    ServerState × List Emission :=
  match mapGet st.sockets sid with
  | none => (st, [])
  | some sock =>
    let (st1, es) := handleLeaveRoom st sid sock
    let st2 :=
      if truthyOpt sock.userId then
        { st1 with
            playerSockets := mapDel st1.playerSockets (sock.userId.getD "")
            socketPlayers := mapDel st1.socketPlayers sid }
      else st1
    ({ st2 with sockets := mapDel st2.sockets sid }, es)

/-- Dispatch every inbound event to its handler (the `socket.on`
registrations of `initMultiplayer`). -/
def handleEvent (st : ServerState) (sid : String) : ClientEvent → ServerState × List Emission
  | ClientEvent.connect =>
    ({ st with sockets := mapSet st.sockets sid {} }, [])
  | ClientEvent.auth userId _token => handleAuth st sid userId
  | ClientEvent.roomCreate gameId isPrivate => handleRoomCreate st sid gameId isPrivate
  | ClientEvent.roomJoin roomId => handleRoomJoin st sid roomId
  | ClientEvent.roomLeave =>
    match mapGet st.sockets sid with
    | none => (st, [])
    | some sock => handleLeaveRoom st sid sock
  | ClientEvent.roomReady ready => handleRoomReady st sid ready
  | ClientEvent.gameMove move => handleGameMove st sid move
  | ClientEvent.gameUpdate => handleGameUpdate st sid
  | ClientEvent.matchmakingFind gameId => handleMatchmakingFind st sid gameId
  | ClientEvent.matchmakingCancel =>
    match mapGet st.sockets sid with
    | none => (st, [])
    | some sock => handleLeaveRoom st sid sock
  | ClientEvent.competitionScore score => handleCompetitionScore st sid score
  | ClientEvent.competitionFinished finalScore => handleCompetitionFinished st sid finalScore
  | ClientEvent.inviteSend friendId gameId => handleInviteSend st sid friendId gameId
  | ClientEvent.disconnect => handleDisconnect st sid

/-- Run a sequence of events, keeping only the final state. -/
def runTrace (st : ServerState) : List (String × ClientEvent) → ServerState
  | [] => st
  | (sid, ev) :: rest => runTrace (handleEvent st sid ev).1 rest

/-! ## Lemmas about association-list maps -/

theorem mapGet_mapSet_self {κ α : Type} [DecidableEq κ] (l : List (κ × α)) (k : κ) (v : α) :
    mapGet (mapSet l k v) k = some v := by
  induction l with
  | nil => simp [mapGet, mapSet]
  | cons hd tl ih =>
    by_cases h : hd.1 = k
    · simp [mapGet, mapSet, h]
    · simpa [mapGet, mapSet, h] using ih

theorem mapGet_mapSet_ne {κ α : Type} [DecidableEq κ] (l : List (κ × α)) (k k' : κ) (v : α)
    (h : k' ≠ k) : mapGet (mapSet l k v) k' = mapGet l k' := by
  have h2 : ¬ k = k' := fun hh => h hh.symm
  induction l with
  | nil => simp [mapGet, mapSet, h2]
  | cons hd tl ih =>
    by_cases hk : hd.1 = k
    · simp [mapGet, mapSet, hk, h2]
    · by_cases hk' : hd.1 = k'
      · simp [mapGet, mapSet, hk, hk', h]
      · simpa [mapGet, mapSet, hk, hk'] using ih

theorem mapGet_append_left {κ α : Type} [DecidableEq κ] (l l2 : List (κ × α)) (k : κ) (v : α)
    (h : mapGet l k = some v) : mapGet (l ++ l2) k = some v := by
  induction l with
  | nil => simp [mapGet] at h
  | cons hd tl ih =>
    by_cases hk : hd.1 = k
    · simpa [mapGet, hk] using by simpa [mapGet, hk] using h
    · exact by simpa [mapGet, hk] using ih (by simpa [mapGet, hk] using h)

theorem mapGet_append_none {κ α : Type} [DecidableEq κ] (l l2 : List (κ × α)) (k : κ)
    (h : mapGet l k = none) : mapGet (l ++ l2) k = mapGet l2 k := by
  induction l with
  | nil => simp [mapGet]
  | cons hd tl ih =>
    by_cases hk : hd.1 = k
    · simp [mapGet, hk] at h
    · exact by simpa [mapGet, hk] using ih (by simpa [mapGet, hk] using h)

theorem mapGet_mapDel_self {κ α : Type} [DecidableEq κ] (l : List (κ × α)) (k : κ) :
    mapGet (mapDel l k) k = none := by
  induction l with
  | nil => simp [mapGet, mapDel]
  | cons hd tl ih =>
    by_cases hk : hd.1 = k
    · simpa [mapDel, hk] using ih
    · simpa [mapGet, mapDel, hk] using ih

theorem mapGet_mapDel_ne {κ α : Type} [DecidableEq κ] (l : List (κ × α)) (k k' : κ)
    (h : k' ≠ k) : mapGet (mapDel l k) k' = mapGet l k' := by
  have h2 : ¬ k = k' := fun hh => h hh.symm
  induction l with
  | nil => simp [mapGet, mapDel]
  | cons hd tl ih =>
    by_cases hk : hd.1 = k
    · simp [mapGet, mapDel, hk, h2, ih]
    · by_cases hk' : hd.1 = k'
      · simp [mapGet, mapDel, hk, hk', h]
      · simpa [mapGet, mapDel, hk, hk'] using ih

/-- With duplicate-free keys, any member entry is exactly what lookup
returns. -/
theorem mapGet_of_mem_nodup {κ α : Type} [DecidableEq κ] (l : List (κ × α)) (k : κ) (v : α)
    (hnd : (l.map Prod.fst).Nodup) (h : (k, v) ∈ l) : mapGet l k = some v := by
  induction l with
  | nil => simp at h
  | cons hd tl ih =>
    simp only [List.map_cons, List.nodup_cons] at hnd
    rcases List.mem_cons.mp h with h1 | h1
    · simp [← h1, mapGet]
    · have hk : hd.1 ≠ k := by
        intro hk
        exact hnd.1 (hk ▸ List.mem_map.mpr ⟨(k, v), h1, rfl⟩)
      have := ih hnd.2 h1
      simpa [mapGet, hk] using this

/-! ## How each handler may move a room's `state` field -/

theorem roomState_handleAuth (st : ServerState) (sid : String) (u : Option String) :
    ((handleAuth st sid u).1).gameRooms = st.gameRooms := by
  unfold handleAuth
  split
  · rfl
  · split
    · split <;> rfl
    · rfl

theorem roomState_handleRoomCreate (st : ServerState) (sid : String) (gameId : String)
    (isPrivate : Bool) (rid : Nat) (r : Room)
    (h : mapGet st.gameRooms rid = some r) :
    mapGet ((handleRoomCreate st sid gameId isPrivate).1).gameRooms rid = some r := by
  unfold handleRoomCreate
  split
  · exact h
  · split
    · exact h
    · split
      · exact h
      · simp only []
        exact mapGet_append_left _ _ _ _ h

theorem roomState_handleRoomJoin (st : ServerState) (sid : String) (roomId rid : Nat)
    (r r' : Room)
    (h : mapGet st.gameRooms rid = some r)
    (h' : mapGet ((handleRoomJoin st sid roomId).1).gameRooms rid = some r') :
    r'.state = r.state := by
  unfold handleRoomJoin at h'
  split at h'
  · rw [h'] at h; cases h; rfl
  · split at h'
    · rw [h'] at h; cases h; rfl
    · split at h'
      · rw [h'] at h; cases h; rfl
      · rename_i room heq
        simp only [] at h'
        split at h'
        · rw [h'] at h; cases h; rfl
        · split at h'
          · rw [h'] at h; cases h; rfl
          · split at h'
            · rw [h'] at h; cases h; rfl
            · by_cases hrid : rid = roomId
              · subst hrid
                rw [mapGet_mapSet_self] at h'
                cases h'
                rw [h] at heq; cases heq
                rfl
              · rw [mapGet_mapSet_ne _ _ _ _ hrid] at h'
                rw [h'] at h; cases h; rfl

theorem roomState_handleLeaveRoom (st : ServerState) (sid : String) (sock : Socket)
    (rid : Nat) (r r' : Room)
    (h : mapGet st.gameRooms rid = some r)
    (h' : mapGet ((handleLeaveRoom st sid sock).1).gameRooms rid = some r') :
    r'.state = r.state ∨ (r.state = RoomState.playing ∧ r'.state = RoomState.finished) := by
  unfold handleLeaveRoom at h'
  split at h'
  · rw [h'] at h; cases h; exact Or.inl rfl
  · rename_i roomId hcr
    split at h'
    · rw [h'] at h; cases h; exact Or.inl rfl
    · rename_i room heq
      simp only [] at h'
      split at h'
      · -- empty: room deleted
        simp only [] at h'
        by_cases hrid : rid = roomId
        · subst hrid; rw [mapGet_mapDel_self] at h'; cases h'
        · rw [mapGet_mapDel_ne _ _ _ hrid] at h'
          rw [h'] at h; cases h; exact Or.inl rfl
      · split at h'
        · -- playing: force-finish
          rename_i hplaying
          by_cases hrid : rid = roomId
          · subst hrid
            rw [mapGet_mapSet_self] at h'
            cases h'
            rw [h] at heq; cases heq
            refine Or.inr ⟨hplaying, ?_⟩
            unfold reassignHost
            split
            · split <;> rfl
            · rfl
          · rw [mapGet_mapSet_ne _ _ _ _ hrid] at h'
            rw [h'] at h; cases h; exact Or.inl rfl
        · by_cases hrid : rid = roomId
          · subst hrid
            rw [mapGet_mapSet_self] at h'
            cases h'
            rw [h] at heq; cases heq
            refine Or.inl ?_
            unfold reassignHost
            split
            · split <;> rfl
            · rfl
          · rw [mapGet_mapSet_ne _ _ _ _ hrid] at h'
            rw [h'] at h; cases h; exact Or.inl rfl

theorem roomState_handleRoomReady (st : ServerState) (sid : String) (ready : Bool)
    (rid : Nat) (r r' : Room)
    (h : mapGet st.gameRooms rid = some r)
    (h' : mapGet ((handleRoomReady st sid ready).1).gameRooms rid = some r') :
    r'.state = r.state ∨ r'.state = RoomState.playing := by
  unfold handleRoomReady at h'
  split at h'
  · rw [h'] at h; cases h; exact Or.inl rfl
  · split at h'
    · rw [h'] at h; cases h; exact Or.inl rfl
    · rename_i roomId hcr
      split at h'
      · rw [h'] at h; cases h; exact Or.inl rfl
      · rename_i room heq
        split at h'
        · rw [h'] at h; cases h; exact Or.inl rfl
        · split at h'
          · simp only [startGame] at h'
            split at h'
            · by_cases hrid : rid = roomId
              · subst hrid
                rw [mapGet_mapSet_self] at h'
                cases h'
                exact Or.inr rfl
              · rw [mapGet_mapSet_ne _ _ _ _ hrid] at h'
                rw [h'] at h; cases h; exact Or.inl rfl
            · by_cases hrid : rid = roomId
              · subst hrid
                rw [mapGet_mapSet_self] at h'
                cases h'
                rw [h] at heq; cases heq
                exact Or.inl rfl
              · rw [mapGet_mapSet_ne _ _ _ _ hrid] at h'
                rw [h'] at h; cases h; exact Or.inl rfl
          · rw [h'] at h; cases h; exact Or.inl rfl

theorem roomState_handleGameMove (st : ServerState) (sid : String) (move : MoveMsg)
    (rid : Nat) (r r' : Room)
    (h : mapGet st.gameRooms rid = some r)
    (h' : mapGet ((handleGameMove st sid move).1).gameRooms rid = some r') :
    r'.state = r.state ∨ (r.state = RoomState.playing ∧ r'.state = RoomState.finished) := by
  unfold handleGameMove at h'
  split at h'
  · rw [h'] at h; cases h; exact Or.inl rfl
  · split at h'
    · rw [h'] at h; cases h; exact Or.inl rfl
    · rename_i roomId hcr
      split at h'
      · rw [h'] at h; cases h; exact Or.inl rfl
      · rename_i room heq
        split at h'
        · rw [h'] at h; cases h; exact Or.inl rfl
        · rename_i hst
          split at h'
          · rw [h'] at h; cases h; exact Or.inl rfl
          · simp only [] at h'
            split at h'
            · split at h'
              · -- gameOver: state finished
                by_cases hrid : rid = roomId
                · subst hrid
                  rw [mapGet_mapSet_self] at h'
                  cases h'
                  rw [h] at heq; cases heq
                  refine Or.inr ⟨by simpa using hst, ?_⟩
                  split <;> rfl
                · rw [mapGet_mapSet_ne _ _ _ _ hrid] at h'
                  rw [h'] at h; cases h; exact Or.inl rfl
              · by_cases hrid : rid = roomId
                · subst hrid
                  rw [mapGet_mapSet_self] at h'
                  cases h'
                  rw [h] at heq; cases heq
                  refine Or.inl ?_
                  split <;> rfl
                · rw [mapGet_mapSet_ne _ _ _ _ hrid] at h'
                  rw [h'] at h; cases h; exact Or.inl rfl
            · rw [h'] at h; cases h; exact Or.inl rfl

theorem roomState_handleGameUpdate (st : ServerState) (sid : String) :
    ((handleGameUpdate st sid).1).gameRooms = st.gameRooms := by
  unfold handleGameUpdate
  split
  · rfl
  · split
    · rfl
    · split
      · rfl
      · split <;> rfl

theorem roomState_handleMatchmakingFind (st : ServerState) (sid : String) (gameId : String)
    (rid : Nat) (r r' : Room)
    (hnd : (st.gameRooms.map Prod.fst).Nodup)
    (h : mapGet st.gameRooms rid = some r)
    (h' : mapGet ((handleMatchmakingFind st sid gameId).1).gameRooms rid = some r') :
    r'.state = r.state ∨ (r.state = RoomState.waiting ∧ r'.state = RoomState.playing) := by
  unfold handleMatchmakingFind at h'
  split at h'
  · rw [h'] at h; cases h; exact Or.inl rfl
  · split at h'
    · rw [h'] at h; cases h; exact Or.inl rfl
    · simp only [] at h'
      split at h'
      · rename_i kv roomId room hfind
        have hmem : (roomId, room) ∈ st.gameRooms := List.mem_of_find?_eq_some hfind
        have hpred : matchablePred gameId room = true := by
          have := List.find?_some hfind
          simpa using this
        have hroom : mapGet st.gameRooms roomId = some room :=
          mapGet_of_mem_nodup _ _ _ hnd hmem
        have hwait : room.state = RoomState.waiting := by
          unfold matchablePred at hpred
          simp only [decide_eq_true_eq] at hpred
          exact hpred.2.2.1
        simp only [startGame] at h'
        split at h'
        · -- quorum reached: startGame over mapSet twice
          by_cases hrid : rid = roomId
          · subst hrid
            rw [mapGet_mapSet_self] at h'
            cases h'
            rw [h] at hroom; cases hroom
            exact Or.inr ⟨hwait, rfl⟩
          · rw [mapGet_mapSet_ne _ _ _ _ hrid, mapGet_mapSet_ne _ _ _ _ hrid] at h'
            rw [h'] at h; cases h; exact Or.inl rfl
        · by_cases hrid : rid = roomId
          · subst hrid
            rw [mapGet_mapSet_self] at h'
            cases h'
            rw [h] at hroom; cases hroom
            exact Or.inl rfl
          · rw [mapGet_mapSet_ne _ _ _ _ hrid] at h'
            rw [h'] at h; cases h; exact Or.inl rfl
      · split at h'
        · rw [h'] at h; cases h; exact Or.inl rfl
        · simp only [] at h'
          rw [mapGet_append_left _ _ _ _ h] at h'
          cases h'; exact Or.inl rfl

theorem roomState_handleCompetitionScore (st : ServerState) (sid : String) (score : Int)
    (rid : Nat) (r r' : Room)
    (h : mapGet st.gameRooms rid = some r)
    (h' : mapGet ((handleCompetitionScore st sid score).1).gameRooms rid = some r') :
    r'.state = r.state := by
  unfold handleCompetitionScore at h'
  split at h'
  · rw [h'] at h; cases h; rfl
  · split at h'
    · rw [h'] at h; cases h; rfl
    · rename_i roomId hcr
      split at h'
      · rw [h'] at h; cases h; rfl
      · rename_i room heq
        split at h'
        · rw [h'] at h; cases h; rfl
        · split at h'
          · rw [h'] at h; cases h; rfl
          · split at h'
            · simp only [] at h'
              by_cases hrid : rid = roomId
              · subst hrid
                rw [mapGet_mapSet_self] at h'
                cases h'
                rw [h] at heq; cases heq
                rfl
              · rw [mapGet_mapSet_ne _ _ _ _ hrid] at h'
                rw [h'] at h; cases h; rfl
            · rw [h'] at h; cases h; rfl

theorem roomState_handleCompetitionFinished (st : ServerState) (sid : String) (fs : Int)
    (rid : Nat) (r r' : Room)
    (h : mapGet st.gameRooms rid = some r)
    (h' : mapGet ((handleCompetitionFinished st sid fs).1).gameRooms rid = some r') :
    r'.state = r.state ∨ (r.state = RoomState.playing ∧ r'.state = RoomState.finished) := by
  unfold handleCompetitionFinished at h'
  split at h'
  · rw [h'] at h; cases h; exact Or.inl rfl
  · split at h'
    · rw [h'] at h; cases h; exact Or.inl rfl
    · rename_i roomId hcr
      split at h'
      · rw [h'] at h; cases h; exact Or.inl rfl
      · rename_i room heq
        split at h'
        · rw [h'] at h; cases h; exact Or.inl rfl
        · rename_i hst
          split at h'
          · rw [h'] at h; cases h; exact Or.inl rfl
          · split at h'
            · simp only [] at h'
              split at h'
              · split at h'
                · -- all finished with two players: force-finish
                  by_cases hrid : rid = roomId
                  · subst hrid
                    rw [mapGet_mapSet_self] at h'
                    cases h'
                    rw [h] at heq; cases heq
                    exact Or.inr ⟨by simpa using hst, rfl⟩
                  · rw [mapGet_mapSet_ne _ _ _ _ hrid] at h'
                    rw [h'] at h; cases h; exact Or.inl rfl
                · by_cases hrid : rid = roomId
                  · subst hrid
                    rw [mapGet_mapSet_self] at h'
                    cases h'
                    rw [h] at heq; cases heq
                    exact Or.inl rfl
                  · rw [mapGet_mapSet_ne _ _ _ _ hrid] at h'
                    rw [h'] at h; cases h; exact Or.inl rfl
              · by_cases hrid : rid = roomId
                · subst hrid
                  rw [mapGet_mapSet_self] at h'
                  cases h'
                  rw [h] at heq; cases heq
                  exact Or.inl rfl
                · rw [mapGet_mapSet_ne _ _ _ _ hrid] at h'
                  rw [h'] at h; cases h; exact Or.inl rfl
            · rw [h'] at h; cases h; exact Or.inl rfl

theorem roomState_handleInviteSend (st : ServerState) (sid : String) (friendId gameId : String) :
    ((handleInviteSend st sid friendId gameId).1).gameRooms = st.gameRooms := by
  unfold handleInviteSend
  split
  · rfl
  · split
    · rfl
    · split <;> rfl

theorem roomState_handleDisconnect (st : ServerState) (sid : String)
    (rid : Nat) (r r' : Room)
    (h : mapGet st.gameRooms rid = some r)
    (h' : mapGet ((handleDisconnect st sid).1).gameRooms rid = some r') :
    r'.state = r.state ∨ (r.state = RoomState.playing ∧ r'.state = RoomState.finished) := by
  unfold handleDisconnect at h'
  split at h'
  · rw [h'] at h; cases h; exact Or.inl rfl
  · rename_i sock hsock
    simp only [] at h'
    have hh : mapGet ((handleLeaveRoom st sid sock).1).gameRooms rid = some r' := by
      split at h' <;> exact h'
    exact roomState_handleLeaveRoom st sid sock rid r r' h hh

/-! ## Claim C1: room state machine -/

/-- Position of a room state along `Waiting → Playing → Finished`. -/
def stateRank : RoomState → Nat
  | RoomState.waiting => 0
  | RoomState.playing => 1
  | RoomState.finished => 2

/-- A trace that plays a public tic-tac-toe match to its end: the room
reaches `finished` with both players still seated and marked ready. -/
def readyRestartTrace : List (String × ClientEvent) :=
  [("s1", ClientEvent.connect), ("s2", ClientEvent.connect),
   ("s1", ClientEvent.auth (some "u1") "t"), ("s2", ClientEvent.auth (some "u2") "t"),
   ("s1", ClientEvent.matchmakingFind "tic-tac-toe"),
   ("s2", ClientEvent.matchmakingFind "tic-tac-toe"),
   ("s1", ClientEvent.gameMove { position := 0 }),
   ("s2", ClientEvent.gameMove { position := 3 }),
   ("s1", ClientEvent.gameMove { position := 1 }),
   ("s2", ClientEvent.gameMove { position := 4 }),
   ("s1", ClientEvent.gameMove { position := 2 })]

/-- C1, counterexample: after `readyRestartTrace` the room is
`finished`, yet one further `room:ready` event moves its state back to
`playing` — the state machine re-enters Playing from Finished, refuting
the claim as stated. -/
theorem C1_counterexample :
    (mapGet (runTrace initialState readyRestartTrace).gameRooms 0).map Room.state
        = some RoomState.finished
      ∧ (mapGet (runTrace initialState
            (readyRestartTrace ++ [("s1", ClientEvent.roomReady true)])).gameRooms 0).map
          Room.state = some RoomState.playing := by
  constructor
  · decide
  · decide

/-- C1 (amended): over any single protocol event, a room's state never
moves backwards along `Waiting → Playing → Finished` — except that a
`room:ready` event may (re)start the game, setting the state to
`playing` even from `finished`. -/
theorem C1_state_forward (st : ServerState) (sid : String) (ev : ClientEvent)
    (rid : Nat) (r r' : Room)
    (hnd : (st.gameRooms.map Prod.fst).Nodup)
    (h : mapGet st.gameRooms rid = some r)
    (h' : mapGet ((handleEvent st sid ev).1).gameRooms rid = some r') :
    stateRank r.state ≤ stateRank r'.state
      ∨ ((∃ b, ev = ClientEvent.roomReady b) ∧ r'.state = RoomState.playing) := by
  cases ev with
  | connect =>
    left
    simp only [handleEvent] at h'
    rw [h'] at h; cases h; exact Nat.le_refl _
  | auth userId token =>
    left
    simp only [handleEvent] at h'
    rw [roomState_handleAuth] at h'
    rw [h'] at h; cases h; exact Nat.le_refl _
  | roomCreate gameId isPrivate =>
    left
    simp only [handleEvent] at h'
    rw [roomState_handleRoomCreate st sid gameId isPrivate rid r h] at h'
    cases h'; exact Nat.le_refl _
  | roomJoin roomId =>
    left
    simp only [handleEvent] at h'
    rw [roomState_handleRoomJoin st sid roomId rid r r' h h']
  | roomLeave =>
    left
    simp only [handleEvent] at h'
    split at h'
    · rw [h'] at h; cases h; exact Nat.le_refl _
    · rcases roomState_handleLeaveRoom st sid _ rid r r' h h' with heq | ⟨hp, hf⟩
      · rw [heq]
      · rw [hp, hf]; decide
  | roomReady ready =>
    simp only [handleEvent] at h'
    rcases roomState_handleRoomReady st sid ready rid r r' h h' with heq | hp
    · left; rw [heq]
    · right; exact ⟨⟨ready, rfl⟩, hp⟩
  | gameMove move =>
    left
    simp only [handleEvent] at h'
    rcases roomState_handleGameMove st sid move rid r r' h h' with heq | ⟨hp, hf⟩
    · rw [heq]
    · rw [hp, hf]; decide
  | gameUpdate =>
    left
    simp only [handleEvent] at h'
    rw [roomState_handleGameUpdate] at h'
    rw [h'] at h; cases h; exact Nat.le_refl _
  | matchmakingFind gameId =>
    left
    simp only [handleEvent] at h'
    rcases roomState_handleMatchmakingFind st sid gameId rid r r' hnd h h' with heq | ⟨hw, hp⟩
    · rw [heq]
    · rw [hw, hp]; decide
  | matchmakingCancel =>
    left
    simp only [handleEvent] at h'
    split at h'
    · rw [h'] at h; cases h; exact Nat.le_refl _
    · rcases roomState_handleLeaveRoom st sid _ rid r r' h h' with heq | ⟨hp, hf⟩
      · rw [heq]
      · rw [hp, hf]; decide
  | competitionScore score =>
    left
    simp only [handleEvent] at h'
    rw [roomState_handleCompetitionScore st sid score rid r r' h h']
  | competitionFinished finalScore =>
    left
    simp only [handleEvent] at h'
    rcases roomState_handleCompetitionFinished st sid finalScore rid r r' h h' with heq | ⟨hp, hf⟩
    · rw [heq]
    · rw [hp, hf]; decide
  | inviteSend friendId gameId =>
    left
    simp only [handleEvent] at h'
    rw [roomState_handleInviteSend] at h'
    rw [h'] at h; cases h; exact Nat.le_refl _
  | disconnect =>
    left
    simp only [handleEvent] at h'
    rcases roomState_handleDisconnect st sid rid r r' h h' with heq | ⟨hp, hf⟩
    · rw [heq]
    · rw [hp, hf]; decide

/-- A one-player waiting room used to instantiate theorems concretely. -/
def demoRoom : Room :=
  { id := 0, gameId := "tic-tac-toe", hostId := "u1"
    players := [{ id := "u1", ready := false }]
    state := RoomState.waiting, isPrivate := true
    gameState := none, currentTurn := none, config := turnCfg }

/-- A server holding `demoRoom` with its host connected. -/
def demoState : ServerState :=
  { gameRooms := [(0, demoRoom)]
    sockets := [("s1", { userId := some "u1", currentRoom := some 0, rooms := [0] })]
    socketPlayers := [("s1", "u1")]
    playerSockets := [("u1", "s1")]
    nextRoomId := 1 }

/-- C1, witness: the forward-state theorem applied to a concrete
`room:ready` event on `demoState`. -/
theorem C1_state_forward_witness :
    stateRank demoRoom.state
        ≤ stateRank ({ demoRoom with players := [{ id := "u1", ready := true }] } : Room).state
      ∨ ((∃ b, ClientEvent.roomReady true = ClientEvent.roomReady b)
          ∧ ({ demoRoom with players := [{ id := "u1", ready := true }] } : Room).state
              = RoomState.playing) :=
  C1_state_forward demoState "s1" (ClientEvent.roomReady true) 0 demoRoom
    { demoRoom with players := [{ id := "u1", ready := true }] }
    (by decide) (by decide) (by decide)

/-! ## Leaving a playing two-player room -/

theorem reassignHost_state (r : Room) (u : Option String) :
    (reassignHost r u).state = r.state := by
  unfold reassignHost
  split
  · split <;> rfl
  · rfl

theorem reassignHost_players (r : Room) (u : Option String) :
    (reassignHost r u).players = r.players := by
  unfold reassignHost
  split
  · split <;> rfl
  · rfl

/-- What `handleLeaveRoom` does when a member of a two-player playing
room (with distinct identities) leaves: the other player remains, the
room is force-finished, and `game:over` declares the remaining player
winner with reason `opponent_left`. -/
theorem leaveRoom_playing_pair (st : ServerState) (sid : String) (sock : Socket)
    (rid : Nat) (room : Room) (p1 p2 other : Player)
    (hcr : sock.currentRoom = some rid)
    (hroom : mapGet st.gameRooms rid = some room)
    (hplay : room.state = RoomState.playing)
    (hps : room.players = [p1, p2])
    (hne : p1.id ≠ p2.id)
    (hcase : (sock.userId = some p1.id ∧ other = p2)
        ∨ (sock.userId = some p2.id ∧ other = p1)) :
    mapGet ((handleLeaveRoom st sid sock).1).gameRooms rid
        = some (reassignHost
            { room with players := [other], state := RoomState.finished } sock.userId)
      ∧ (handleLeaveRoom st sid sock).2
          = [Emission.toRoom rid "room:playerLeft" (Payload.playerLeft sock.userId),
             Emission.toRoom rid "game:over"
               (Payload.gameOver (some other.id) (some "opponent_left"))] := by
  have hfil : (room.players.filter fun p => sock.userId ≠ some p.id) = [other] := by
    rcases hcase with ⟨hu, ho⟩ | ⟨hu, ho⟩
    · subst ho
      rw [hps, hu]
      simp [List.filter, hne]
    · subst ho
      rw [hps, hu]
      have hne' : p2.id ≠ other.id := fun h => hne h.symm
      simp [List.filter, hne']
  unfold handleLeaveRoom
  rw [hcr]
  simp only [hroom, hfil, List.isEmpty_cons, hplay]
  simp [mapGet_mapSet_self]

/-! ## Claim C2: one room per identity -/

/-- A trace in which one identity creates two rooms in a row. -/
def doubleCreateTrace : List (String × ClientEvent) :=
  [("s1", ClientEvent.connect),
   ("s1", ClientEvent.auth (some "u1") "t"),
   ("s1", ClientEvent.roomCreate "tic-tac-toe" true),
   ("s1", ClientEvent.roomCreate "tic-tac-toe" true)]

/-- C2, counterexample: after `doubleCreateTrace`, identity `u1` sits
in the player lists of two live rooms at once — `room:create` never
removed it from the first room, refuting the claim as stated. -/
theorem C2_counterexample :
    ((mapGet (runTrace initialState doubleCreateTrace).gameRooms 0).map
        fun r => r.players.map Player.id) = some ["u1"]
      ∧ ((mapGet (runTrace initialState doubleCreateTrace).gameRooms 1).map
          fun r => r.players.map Player.id) = some ["u1"] := by
  constructor
  · decide
  · decide

/-- Identity membership lemmas: appending, first-slot ready updates
and mark-all-ready maps never drop a seated identity. -/
theorem idMem_append (ps qs : List Player) (u : String)
    (h : ∃ p ∈ ps, p.id = u) : ∃ p ∈ ps ++ qs, p.id = u := by
  obtain ⟨p, hp, hid⟩ := h
  exact ⟨p, List.mem_append_left _ hp, hid⟩

theorem idMem_setReadyFirst (u0 : String) (b : Bool) (ps : List Player) (u : String)
    (h : ∃ p ∈ ps, p.id = u) : ∃ p ∈ setReadyFirst u0 b ps, p.id = u := by
  induction ps with
  | nil => simpa using h
  | cons q qs ih =>
    obtain ⟨p, hp, hid⟩ := h
    rcases List.mem_cons.mp hp with rfl | hp
    · unfold setReadyFirst
      split
      · exact ⟨{ p with ready := b }, List.mem_cons_self _ _, hid⟩
      · exact ⟨p, List.mem_cons_self _ _, hid⟩
    · unfold setReadyFirst
      split
      · exact ⟨p, List.mem_cons_of_mem _ hp, hid⟩
      · obtain ⟨p2, hp2, hid2⟩ := ih ⟨p, hp, hid⟩
        exact ⟨p2, List.mem_cons_of_mem _ hp2, hid2⟩

theorem idMem_map_ready (ps : List Player) (u : String)
    (h : ∃ p ∈ ps, p.id = u) :
    ∃ p ∈ ps.map (fun p => { p with ready := true }), p.id = u := by
  obtain ⟨p, hp, hid⟩ := h
  exact ⟨{ p with ready := true }, List.mem_map.mpr ⟨p, hp, rfl⟩, hid⟩

/-! ### No handler except leaving removes a seated identity -/

theorem roomPlayers_handleRoomJoin (st : ServerState) (sid : String) (roomId rid : Nat)
    (r : Room) (u : String)
    (h : mapGet st.gameRooms rid = some r)
    (hmem : ∃ p ∈ r.players, p.id = u) :
    ∃ r2, mapGet ((handleRoomJoin st sid roomId).1).gameRooms rid = some r2
      ∧ ∃ p ∈ r2.players, p.id = u := by
  unfold handleRoomJoin
  split
  · exact ⟨r, h, hmem⟩
  · split
    · exact ⟨r, h, hmem⟩
    · simp only []
      split
      · exact ⟨r, h, hmem⟩
      · rename_i room heq
        split
        · exact ⟨r, h, hmem⟩
        · split
          · exact ⟨r, h, hmem⟩
          · split
            · exact ⟨r, h, hmem⟩
            · by_cases hrid : rid = roomId
              · subst hrid
                rw [h] at heq; cases heq
                exact ⟨_, mapGet_mapSet_self _ _ _, idMem_append _ _ _ hmem⟩
              · exact ⟨r, by rw [mapGet_mapSet_ne _ _ _ _ hrid]; exact h, hmem⟩

theorem roomPlayers_handleRoomReady (st : ServerState) (sid : String) (ready : Bool)
    (rid : Nat) (r : Room) (u : String)
    (h : mapGet st.gameRooms rid = some r)
    (hmem : ∃ p ∈ r.players, p.id = u) :
    ∃ r2, mapGet ((handleRoomReady st sid ready).1).gameRooms rid = some r2
      ∧ ∃ p ∈ r2.players, p.id = u := by
  unfold handleRoomReady
  split
  · exact ⟨r, h, hmem⟩
  · split
    · exact ⟨r, h, hmem⟩
    · rename_i roomId hcr
      split
      · exact ⟨r, h, hmem⟩
      · rename_i room heq
        split
        · exact ⟨r, h, hmem⟩
        · split
          · simp only [startGame]
            split
            · by_cases hrid : rid = roomId
              · subst hrid
                rw [h] at heq; cases heq
                exact ⟨_, mapGet_mapSet_self _ _ _, idMem_setReadyFirst _ _ _ _ hmem⟩
              · exact ⟨r, by rw [mapGet_mapSet_ne _ _ _ _ hrid]; exact h, hmem⟩
            · by_cases hrid : rid = roomId
              · subst hrid
                rw [h] at heq; cases heq
                exact ⟨_, mapGet_mapSet_self _ _ _, idMem_setReadyFirst _ _ _ _ hmem⟩
              · exact ⟨r, by rw [mapGet_mapSet_ne _ _ _ _ hrid]; exact h, hmem⟩
          · exact ⟨r, h, hmem⟩

theorem roomPlayers_handleGameMove (st : ServerState) (sid : String) (move : MoveMsg)
    (rid : Nat) (r : Room) (u : String)
    (h : mapGet st.gameRooms rid = some r)
    (hmem : ∃ p ∈ r.players, p.id = u) :
    ∃ r2, mapGet ((handleGameMove st sid move).1).gameRooms rid = some r2
      ∧ ∃ p ∈ r2.players, p.id = u := by
  unfold handleGameMove
  split
  · exact ⟨r, h, hmem⟩
  · split
    · exact ⟨r, h, hmem⟩
    · rename_i roomId hcr
      split
      · exact ⟨r, h, hmem⟩
      · rename_i room heq
        split
        · exact ⟨r, h, hmem⟩
        · split
          · exact ⟨r, h, hmem⟩
          · simp only []
            split
            · split
              · by_cases hrid : rid = roomId
                · subst hrid
                  rw [h] at heq; cases heq
                  refine ⟨_, mapGet_mapSet_self _ _ _, ?_⟩
                  split <;> exact hmem
                · exact ⟨r, by rw [mapGet_mapSet_ne _ _ _ _ hrid]; exact h, hmem⟩
              · by_cases hrid : rid = roomId
                · subst hrid
                  rw [h] at heq; cases heq
                  refine ⟨_, mapGet_mapSet_self _ _ _, ?_⟩
                  split <;> exact hmem
                · exact ⟨r, by rw [mapGet_mapSet_ne _ _ _ _ hrid]; exact h, hmem⟩
            · exact ⟨r, h, hmem⟩

theorem roomPlayers_handleMatchmakingFind (st : ServerState) (sid : String)
    (gameId : String) (rid : Nat) (r : Room) (u : String)
    (hnd : (st.gameRooms.map Prod.fst).Nodup)
    (h : mapGet st.gameRooms rid = some r)
    (hmem : ∃ p ∈ r.players, p.id = u) :
    ∃ r2, mapGet ((handleMatchmakingFind st sid gameId).1).gameRooms rid = some r2
      ∧ ∃ p ∈ r2.players, p.id = u := by
  unfold handleMatchmakingFind
  split
  · exact ⟨r, h, hmem⟩
  · split
    · exact ⟨r, h, hmem⟩
    · simp only []
      split
      · rename_i kv roomId room hfind
        have hroom : mapGet st.gameRooms roomId = some room :=
          mapGet_of_mem_nodup _ _ _ hnd (List.mem_of_find?_eq_some hfind)
        simp only [startGame]
        split
        · by_cases hrid : rid = roomId
          · subst hrid
            rw [h] at hroom; cases hroom
            exact ⟨_, mapGet_mapSet_self _ _ _,
              idMem_map_ready _ _ (idMem_append _ _ _ hmem)⟩
          · exact ⟨r,
              by rw [mapGet_mapSet_ne _ _ _ _ hrid, mapGet_mapSet_ne _ _ _ _ hrid]
                 exact h, hmem⟩
        · by_cases hrid : rid = roomId
          · subst hrid
            rw [h] at hroom; cases hroom
            exact ⟨_, mapGet_mapSet_self _ _ _, idMem_append _ _ _ hmem⟩
          · exact ⟨r, by rw [mapGet_mapSet_ne _ _ _ _ hrid]; exact h, hmem⟩
      · split
        · exact ⟨r, h, hmem⟩
        · exact ⟨r, mapGet_append_left _ _ _ _ h, hmem⟩

theorem roomPlayers_handleCompetitionScore (st : ServerState) (sid : String)
    (score : Int) (rid : Nat) (r : Room) (u : String)
    (h : mapGet st.gameRooms rid = some r)
    (hmem : ∃ p ∈ r.players, p.id = u) :
    ∃ r2, mapGet ((handleCompetitionScore st sid score).1).gameRooms rid = some r2
      ∧ ∃ p ∈ r2.players, p.id = u := by
  unfold handleCompetitionScore
  split
  · exact ⟨r, h, hmem⟩
  · split
    · exact ⟨r, h, hmem⟩
    · rename_i roomId hcr
      split
      · exact ⟨r, h, hmem⟩
      · rename_i room heq
        split
        · exact ⟨r, h, hmem⟩
        · split
          · exact ⟨r, h, hmem⟩
          · split
            · simp only []
              by_cases hrid : rid = roomId
              · subst hrid
                rw [h] at heq; cases heq
                exact ⟨_, mapGet_mapSet_self _ _ _, hmem⟩
              · exact ⟨r, by rw [mapGet_mapSet_ne _ _ _ _ hrid]; exact h, hmem⟩
            · exact ⟨r, h, hmem⟩

theorem roomPlayers_handleCompetitionFinished (st : ServerState) (sid : String)
    (fs : Int) (rid : Nat) (r : Room) (u : String)
    (h : mapGet st.gameRooms rid = some r)
    (hmem : ∃ p ∈ r.players, p.id = u) :
    ∃ r2, mapGet ((handleCompetitionFinished st sid fs).1).gameRooms rid = some r2
      ∧ ∃ p ∈ r2.players, p.id = u := by
  unfold handleCompetitionFinished
  split
  · exact ⟨r, h, hmem⟩
  · split
    · exact ⟨r, h, hmem⟩
    · rename_i roomId hcr
      split
      · exact ⟨r, h, hmem⟩
      · rename_i room heq
        split
        · exact ⟨r, h, hmem⟩
        · split
          · exact ⟨r, h, hmem⟩
          · split
            · simp only []
              split
              · split
                · by_cases hrid : rid = roomId
                  · subst hrid
                    rw [h] at heq; cases heq
                    exact ⟨_, mapGet_mapSet_self _ _ _, hmem⟩
                  · exact ⟨r, by rw [mapGet_mapSet_ne _ _ _ _ hrid]; exact h, hmem⟩
                · by_cases hrid : rid = roomId
                  · subst hrid
                    rw [h] at heq; cases heq
                    exact ⟨_, mapGet_mapSet_self _ _ _, hmem⟩
                  · exact ⟨r, by rw [mapGet_mapSet_ne _ _ _ _ hrid]; exact h, hmem⟩
              · by_cases hrid : rid = roomId
                · subst hrid
                  rw [h] at heq; cases heq
                  exact ⟨_, mapGet_mapSet_self _ _ _, hmem⟩
                · exact ⟨r, by rw [mapGet_mapSet_ne _ _ _ _ hrid]; exact h, hmem⟩
            · exact ⟨r, h, hmem⟩

/-- C2 (amended): binding a connection to a new room never removes the
identity from the player list of any room it previously occupied.
Part 1: after `room:create` by a connection already seated in a room,
the old room is byte-for-byte unchanged (the identity still in it) and
the identity also populates the new room.  Part 2: no protocol event
other than `room:leave`, `matchmaking:cancel` or `disconnect` (the
three that invoke `handleLeaveRoom`) ever removes an identity from a
live room's player list — in particular `room:join` and
`matchmaking:find` only ever add seats. -/
theorem C2_bind_keeps_memberships :
    (∀ (st : ServerState) (sid gameId : String) (isPrivate : Bool) (sock : Socket)
        (u : String) (oldRid : Nat) (oldRoom : Room) (cfg : GameConfig),
      mapGet st.sockets sid = some sock →
      sock.userId = some u →
      truthyStr u = true →
      sock.currentRoom = some oldRid →
      mapGet st.gameRooms oldRid = some oldRoom →
      (∃ p ∈ oldRoom.players, p.id = u) →
      GAME_CONFIGS gameId = some cfg →
      mapGet st.gameRooms st.nextRoomId = none →
      mapGet ((handleRoomCreate st sid gameId isPrivate).1).gameRooms oldRid
          = some oldRoom
        ∧ ∃ newRoom,
            mapGet ((handleRoomCreate st sid gameId isPrivate).1).gameRooms st.nextRoomId
                = some newRoom
              ∧ newRoom.players = [{ id := u, ready := false }])
    ∧ (∀ (st : ServerState) (sid : String) (ev : ClientEvent) (rid : Nat) (r : Room)
        (u : String),
      ev ≠ ClientEvent.roomLeave →
      ev ≠ ClientEvent.matchmakingCancel →
      ev ≠ ClientEvent.disconnect →
      (st.gameRooms.map Prod.fst).Nodup →
      mapGet st.gameRooms rid = some r →
      (∃ p ∈ r.players, p.id = u) →
      ∃ r2, mapGet ((handleEvent st sid ev).1).gameRooms rid = some r2
        ∧ ∃ p ∈ r2.players, p.id = u) := by
  constructor
  · intro st sid gameId isPrivate sock u oldRid oldRoom cfg hs hu hut hcr hold hmem
      hcfg hfresh
    have htr : truthyOpt (some u) = true := by simpa [truthyOpt] using hut
    simp only [handleRoomCreate, hs, hu, htr, hcfg, not_true, Bool.not_eq_true,
      reduceCtorEq, if_false]
    constructor
    · exact mapGet_append_left _ _ _ _ hold
    · refine ⟨{ id := st.nextRoomId, gameId := gameId, hostId := u
                players := [{ id := u, ready := false }], state := RoomState.waiting
                isPrivate := isPrivate, gameState := none, currentTurn := none
                config := cfg }, ?_, rfl⟩
      rw [mapGet_append_none _ _ _ hfresh]
      simp [mapGet]
  · intro st sid ev rid r u hev1 hev2 hev3 hnd h hmem
    cases ev with
    | connect =>
      exact ⟨r, h, hmem⟩
    | auth userId token =>
      simp only [handleEvent]
      rw [roomState_handleAuth]
      exact ⟨r, h, hmem⟩
    | roomCreate gameId isPrivate =>
      exact ⟨r, roomState_handleRoomCreate st sid gameId isPrivate rid r h, hmem⟩
    | roomJoin roomId =>
      exact roomPlayers_handleRoomJoin st sid roomId rid r u h hmem
    | roomLeave => exact absurd rfl hev1
    | roomReady ready =>
      exact roomPlayers_handleRoomReady st sid ready rid r u h hmem
    | gameMove move =>
      exact roomPlayers_handleGameMove st sid move rid r u h hmem
    | gameUpdate =>
      simp only [handleEvent]
      rw [roomState_handleGameUpdate]
      exact ⟨r, h, hmem⟩
    | matchmakingFind gameId =>
      exact roomPlayers_handleMatchmakingFind st sid gameId rid r u hnd h hmem
    | matchmakingCancel => exact absurd rfl hev2
    | competitionScore score =>
      exact roomPlayers_handleCompetitionScore st sid score rid r u h hmem
    | competitionFinished finalScore =>
      exact roomPlayers_handleCompetitionFinished st sid finalScore rid r u h hmem
    | inviteSend friendId gameId =>
      simp only [handleEvent]
      rw [roomState_handleInviteSend]
      exact ⟨r, h, hmem⟩
    | disconnect => exact absurd rfl hev3

/-- A concrete two-player tic-tac-toe room in play. -/
def playingRoom : Room :=
  { id := 0, gameId := "tic-tac-toe", hostId := "u1"
    players := [{ id := "u1", ready := true }, { id := "u2", ready := true }]
    state := RoomState.playing, isPrivate := false
    gameState := some (GameState.ttt (List.replicate 9 Cell.null)
      [("u1", "X"), ("u2", "O")])
    currentTurn := some "u1", config := turnCfg }

/-- A server hosting `playingRoom` with both players connected. -/
def playingState : ServerState :=
  { gameRooms := [(0, playingRoom)]
    sockets := [("s1", { userId := some "u1", currentRoom := some 0, rooms := [0] }),
                ("s2", { userId := some "u2", currentRoom := some 0, rooms := [0] })]
    socketPlayers := [("s1", "u1"), ("s2", "u2")]
    playerSockets := [("u1", "s1"), ("u2", "s2")]
    nextRoomId := 1 }

/-- C4: in a two-player room in state Playing, a `room:leave` or a
`disconnect` by either player always force-finishes the room: the
remaining player is the sole occupant and is declared winner by a
`game:over` broadcast with reason `opponent_left`; the room is never
left `playing`. -/
theorem C4_leave_playing_finishes (st : ServerState) (sid : String) (ev : ClientEvent)
    (sock : Socket) (rid : Nat) (room : Room) (p1 p2 other : Player)
    (hev : ev = ClientEvent.roomLeave ∨ ev = ClientEvent.disconnect)
    (hs : mapGet st.sockets sid = some sock)
    (hcr : sock.currentRoom = some rid)
    (hroom : mapGet st.gameRooms rid = some room)
    (hplay : room.state = RoomState.playing)
    (hps : room.players = [p1, p2])
    (hne : p1.id ≠ p2.id)
    (hcase : (sock.userId = some p1.id ∧ other = p2)
        ∨ (sock.userId = some p2.id ∧ other = p1)) :
    ∃ room', mapGet ((handleEvent st sid ev).1).gameRooms rid = some room'
      ∧ room'.state = RoomState.finished
      ∧ room'.players = [other]
      ∧ (handleEvent st sid ev).2
          = [Emission.toRoom rid "room:playerLeft" (Payload.playerLeft sock.userId),
             Emission.toRoom rid "game:over"
               (Payload.gameOver (some other.id) (some "opponent_left"))] := by
  have hmain := leaveRoom_playing_pair st sid sock rid room p1 p2 other
    hcr hroom hplay hps hne hcase
  rcases hev with hev | hev <;> subst hev
  · simp only [handleEvent, hs]
    exact ⟨_, hmain.1, by rw [reassignHost_state], by rw [reassignHost_players], hmain.2⟩
  · have h1 : ((handleDisconnect st sid).1).gameRooms
        = ((handleLeaveRoom st sid sock).1).gameRooms := by
      unfold handleDisconnect
      rw [hs]
      simp only []
      split <;> rfl
    have h2 : (handleDisconnect st sid).2 = (handleLeaveRoom st sid sock).2 := by
      unfold handleDisconnect
      rw [hs]
    refine ⟨reassignHost { room with players := [other], state := RoomState.finished }
        sock.userId, ?_, by rw [reassignHost_state], by rw [reassignHost_players], ?_⟩
    · show mapGet ((handleDisconnect st sid).1).gameRooms rid = _
      rw [h1]; exact hmain.1
    · show (handleDisconnect st sid).2 = _
      rw [h2]; exact hmain.2

/-- C4, witness: the force-finish theorem applied to `s2` leaving
`playingState`; `u1` remains and wins with reason `opponent_left`. -/
theorem C4_leave_playing_finishes_witness :
    ∃ room', mapGet ((handleEvent playingState "s2" ClientEvent.roomLeave).1).gameRooms 0
        = some room'
      ∧ room'.state = RoomState.finished
      ∧ room'.players = [{ id := "u1", ready := true }]
      ∧ (handleEvent playingState "s2" ClientEvent.roomLeave).2
          = [Emission.toRoom 0 "room:playerLeft" (Payload.playerLeft (some "u2")),
             Emission.toRoom 0 "game:over"
               (Payload.gameOver (some "u1") (some "opponent_left"))] :=
  C4_leave_playing_finishes playingState "s2" ClientEvent.roomLeave
    { userId := some "u2", currentRoom := some 0, rooms := [0] } 0 playingRoom
    { id := "u1", ready := true } { id := "u2", ready := true } { id := "u1", ready := true }
    (Or.inl rfl) (by decide) (by decide) (by decide) (by decide) (by decide) (by decide)
    (Or.inr ⟨by decide, by decide⟩)

/-! ## Claim C3: score-competition finish -/

/-- A trace that starts a public score-competition match and has one
player leave mid-game. -/
def scoreLeaveTrace : List (String × ClientEvent) :=
  [("s1", ClientEvent.connect), ("s2", ClientEvent.connect),
   ("s1", ClientEvent.auth (some "u1") "t"), ("s2", ClientEvent.auth (some "u2") "t"),
   ("s1", ClientEvent.matchmakingFind "snake"),
   ("s2", ClientEvent.matchmakingFind "snake"),
   ("s2", ClientEvent.roomLeave)]

/-- C3, counterexample: after `scoreLeaveTrace` the score-competition
room is `finished` although neither player ever sent
`competition:finished` (both `finished` flags are still `false`) — the
"only if" direction of the claim fails because leaving also finishes
the room. -/
theorem C3_counterexample :
    ((mapGet (runTrace initialState scoreLeaveTrace).gameRooms 0).map Room.state
        = some RoomState.finished)
      ∧ ((mapGet (runTrace initialState scoreLeaveTrace).gameRooms 0).map Room.gameState
          = some (some (GameState.score [("u1", 0), ("u2", 0)]
              [("u1", false), ("u2", false)]))) := by
  constructor
  · decide
  · decide

/-- C3 (amended): (1) a `competition:finished` event finishes a playing
score-competition room exactly when it leaves every player marked
finished, and then broadcasts `game:over` naming the higher-final-score
player winner (`scoreWinner`); (2) `scoreWinner` is the strictly-higher
score, `null` on a tie; (3) in addition, a player leaving a playing
score-competition room force-finishes it with reason `opponent_left`. -/
theorem C3_score_finish :
    (∀ (st : ServerState) (sid : String) (sock : Socket) (rid : Nat) (room : Room)
        (sc : List (String × Int)) (fin : List (String × Bool)) (p1 p2 : Player)
        (u : String) (fsc : Int),
      mapGet st.sockets sid = some sock →
      sock.userId = some u →
      sock.currentRoom = some rid →
      mapGet st.gameRooms rid = some room →
      room.state = RoomState.playing →
      room.config.scoreCompetition = true →
      room.gameState = some (GameState.score sc fin) →
      room.players = [p1, p2] →
      ∃ room',
        mapGet ((handleCompetitionFinished st sid fsc).1).gameRooms rid = some room'
          ∧ room'.gameState = some (GameState.score (mapSet sc u fsc) (mapSet fin u true))
          ∧ (room'.state = RoomState.finished
              ↔ ((mapGet (mapSet fin u true) p1.id).getD false = true
                  ∧ (mapGet (mapSet fin u true) p2.id).getD false = true))
          ∧ (((mapGet (mapSet fin u true) p1.id).getD false = true
                ∧ (mapGet (mapSet fin u true) p2.id).getD false = true) →
              (handleCompetitionFinished st sid fsc).2
                = [Emission.toRoomExcept rid sid "competition:opponentFinished"
                     (Payload.opponentFinished fsc (some u)),
                   Emission.toRoom rid "game:over"
                     (Payload.gameOver (scoreWinner (mapSet sc u fsc) p1.id p2.id)
                       (some (if (scoreWinner (mapSet sc u fsc) p1.id p2.id).isSome
                              then "win" else "draw")))]))
    ∧ (∀ (sc : List (String × Int)) (a b : String) (x y : Int),
        mapGet sc a = some x → mapGet sc b = some y →
        scoreWinner sc a b
          = if y < x then some a else if x < y then some b else none)
    ∧ (∀ (st : ServerState) (sid : String) (sock : Socket) (rid : Nat) (room : Room)
        (p1 p2 other : Player),
        sock.currentRoom = some rid →
        mapGet st.gameRooms rid = some room →
        room.state = RoomState.playing →
        room.config.scoreCompetition = true →
        room.players = [p1, p2] →
        p1.id ≠ p2.id →
        ((sock.userId = some p1.id ∧ other = p2)
            ∨ (sock.userId = some p2.id ∧ other = p1)) →
        ∃ room', mapGet ((handleLeaveRoom st sid sock).1).gameRooms rid = some room'
          ∧ room'.state = RoomState.finished
          ∧ (handleLeaveRoom st sid sock).2
              = [Emission.toRoom rid "room:playerLeft" (Payload.playerLeft sock.userId),
                 Emission.toRoom rid "game:over"
                   (Payload.gameOver (some other.id) (some "opponent_left"))]) := by
  refine ⟨?_, ?_, ?_⟩
  · intro st sid sock rid room sc fin p1 p2 u fsc hs hu hcr hroom hplay hsc hgs hps
    unfold handleCompetitionFinished
    simp only [hs, hcr, hroom, hplay, hsc, hgs, hu, hps, ne_eq, not_true_eq_false,
      Bool.false_eq_true, if_false, Option.getD_some]
    by_cases hall : ((mapGet (mapSet fin u true) p1.id).getD false = true
        ∧ (mapGet (mapSet fin u true) p2.id).getD false = true)
    · rw [if_pos (by simp [hall.1, hall.2])]
      exact ⟨_, mapGet_mapSet_self _ _ _, rfl, by simp [hall], fun _ => rfl⟩
    · rw [if_neg (by
        simp only [List.all_cons, List.all_nil, Bool.and_true, Bool.and_eq_true]
        intro hcon
        exact hall ⟨hcon.1, hcon.2⟩)]
      refine ⟨_, mapGet_mapSet_self _ _ _, rfl, ?_, fun hcon => absurd hcon hall⟩
      constructor
      · intro hf
        simp at hf
      · intro hcon
        exact absurd hcon hall
  · intro sc a b x y hx hy
    unfold scoreWinner jsGtOpt
    rw [hx, hy]
    by_cases h1 : y < x
    · simp [h1, not_lt_of_lt h1]
    · by_cases h2 : x < y
      · simp [h1, h2]
      · simp [h1, h2]
  · intro st sid sock rid room p1 p2 other hcr hroom hplay hsc hps hne hcase
    have hmain := leaveRoom_playing_pair st sid sock rid room p1 p2 other
      hcr hroom hplay hps hne hcase
    exact ⟨_, hmain.1, by rw [reassignHost_state], hmain.2⟩

/-- A concrete playing score-competition room (scores 5 and 3, `u1`
already finished). -/
def scoreRoom : Room :=
  { id := 0, gameId := "snake", hostId := "u1"
    players := [{ id := "u1", ready := true }, { id := "u2", ready := true }]
    state := RoomState.playing, isPrivate := false
    gameState := some (GameState.score [("u1", 5), ("u2", 3)]
      [("u1", true), ("u2", false)])
    currentTurn := none, config := scoreCfg }

/-- A server hosting `scoreRoom` with both players connected. -/
def scoreState : ServerState :=
  { gameRooms := [(0, scoreRoom)]
    sockets := [("s1", { userId := some "u1", currentRoom := some 0, rooms := [0] }),
                ("s2", { userId := some "u2", currentRoom := some 0, rooms := [0] })]
    socketPlayers := [("s1", "u1"), ("s2", "u2")]
    playerSockets := [("u1", "s1"), ("u2", "s2")]
    nextRoomId := 1 }

/-- C3, witness: `u2` reports finished with score 3 in `scoreState`
(both parts of the amended claim applied at concrete inputs). -/
theorem C3_score_finish_witness :
    (∃ room',
      mapGet ((handleCompetitionFinished scoreState "s2" 3).1).gameRooms 0 = some room'
        ∧ room'.gameState = some (GameState.score
            (mapSet [("u1", 5), ("u2", 3)] "u2" 3)
            (mapSet [("u1", true), ("u2", false)] "u2" true))
        ∧ (room'.state = RoomState.finished
            ↔ ((mapGet (mapSet [("u1", true), ("u2", false)] "u2" true) "u1").getD false
                  = true
                ∧ (mapGet (mapSet [("u1", true), ("u2", false)] "u2" true) "u2").getD false
                  = true))
        ∧ (((mapGet (mapSet [("u1", true), ("u2", false)] "u2" true) "u1").getD false
              = true
            ∧ (mapGet (mapSet [("u1", true), ("u2", false)] "u2" true) "u2").getD false
              = true) →
            (handleCompetitionFinished scoreState "s2" 3).2
              = [Emission.toRoomExcept 0 "s2" "competition:opponentFinished"
                   (Payload.opponentFinished 3 (some "u2")),
                 Emission.toRoom 0 "game:over"
                   (Payload.gameOver
                     (scoreWinner (mapSet [("u1", 5), ("u2", 3)] "u2" 3) "u1" "u2")
                     (some (if (scoreWinner (mapSet [("u1", 5), ("u2", 3)] "u2" 3)
                            "u1" "u2").isSome then "win" else "draw")))]))
      ∧ scoreWinner [("u1", 5), ("u2", 3)] "u1" "u2"
          = if (3 : Int) < 5 then some "u1" else if (5 : Int) < 3 then some "u2" else none :=
  ⟨C3_score_finish.1 scoreState "s2"
      { userId := some "u2", currentRoom := some 0, rooms := [0] } 0 scoreRoom
      [("u1", 5), ("u2", 3)] [("u1", true), ("u2", false)]
      { id := "u1", ready := true } { id := "u2", ready := true } "u2" 3
      (by decide) (by decide) (by decide) (by decide) (by decide) (by decide)
      (by decide) (by decide),
   C3_score_finish.2.1 [("u1", 5), ("u2", 3)] "u1" "u2" 5 3 (by decide) (by decide)⟩

/-! ## Claim C5: tic-tac-toe move processor -/

theorem getD_set_ne {α : Type} (l : List α) (n m : Nat) (v d : α) (h : n ≠ m) :
    (l.set n v).getD m d = l.getD m d := by
  induction l generalizing n m with
  | nil => simp
  | cons hd tl ih =>
    cases n with
    | zero =>
      cases m with
      | zero => exact absurd rfl h
      | succ m => simp [List.set, List.getD]
    | succ n =>
      cases m with
      | zero => simp [List.set, List.getD]
      | succ m =>
        simpa [List.set, List.getD] using ih n m (fun hh => h (by rw [hh]))

theorem getD_set_self {α : Type} (l : List α) (n : Nat) (v d : α) (h : n < l.length) :
    (l.set n v).getD n d = v := by
  induction l generalizing n with
  | nil => simp at h
  | cons hd tl ih =>
    cases n with
    | zero => simp [List.set, List.getD]
    | succ n => simpa [List.set, List.getD] using ih n (by simpa using h)

theorem mem_of_mapGet {κ α : Type} [DecidableEq κ] (l : List (κ × α)) (k : κ) (v : α)
    (h : mapGet l k = some v) : (k, v) ∈ l := by
  induction l with
  | nil => simp [mapGet] at h
  | cons hd tl ih =>
    by_cases hk : hd.1 = k
    · obtain ⟨k0, v0⟩ := hd
      simp only at hk
      subst hk
      simp only [mapGet, if_pos, Option.some.injEq] at h
      subst h
      exact List.mem_cons_self _ _
    · right
      exact ih (by simpa [mapGet, hk] using h)

/-- The first cell of a scan line. -/
def tttLineVal (board : List Cell) (l : Nat × Nat × Nat) : Cell :=
  board.getD l.1 Cell.undef

/-- The per-line condition of `checkTicTacToeWinner`: a truthy first
cell equal to the other two. -/
def tttLineHit (board : List Cell) (l : Nat × Nat × Nat) : Prop :=
  truthyCell (tttLineVal board l) = true
    ∧ tttLineVal board l = board.getD l.2.1 Cell.undef
    ∧ tttLineVal board l = board.getD l.2.2 Cell.undef

instance (board : List Cell) (l : Nat × Nat × Nat) : Decidable (tttLineHit board l) :=
  decidable_of_iff
    (truthyCell (tttLineVal board l) = true
      ∧ tttLineVal board l = board.getD l.2.1 Cell.undef
      ∧ tttLineVal board l = board.getD l.2.2 Cell.undef) Iff.rfl

theorem scanTttLines_eq_mark (board : List Cell) (m : String)
    (ls : List (Nat × Nat × Nat))
    (hall : ∀ l ∈ ls, tttLineHit board l → tttLineVal board l = Cell.mark m)
    (hex : ∃ l ∈ ls, tttLineHit board l) :
    scanTttLines board ls = Cell.mark m := by
  induction ls with
  | nil =>
    rcases hex with ⟨l, hl, _⟩
    simp at hl
  | cons l0 rest ih =>
    obtain ⟨a, b, c⟩ := l0
    unfold scanTttLines
    simp only []
    split
    · rename_i hcond
      exact hall (a, b, c) (List.mem_cons_self _ _) ⟨hcond.1, hcond.2.1, hcond.2.2⟩
    · rename_i hcond
      apply ih
      · exact fun l hl => hall l (List.mem_cons_of_mem _ hl)
      · rcases hex with ⟨l, hl, hhit⟩
        rcases List.mem_cons.mp hl with rfl | hl
        · exact absurd ⟨hhit.1, hhit.2.1, hhit.2.2⟩ hcond
        · exact ⟨l, hl, hhit⟩

/-! ## Rejected `game:move` events leave the server untouched -/

theorem gameMove_not_your_turn (st : ServerState) (sid : String) (sock : Socket)
    (rid : Nat) (room : Room) (move : MoveMsg)
    (hs : mapGet st.sockets sid = some sock)
    (hcr : sock.currentRoom = some rid)
    (hroom : mapGet st.gameRooms rid = some room)
    (hplay : room.state = RoomState.playing)
    (hturn : room.config.turnBased = true ∧ room.currentTurn ≠ sock.userId) :
    handleGameMove st sid move
      = (st, [Emission.direct sid "error" (Payload.errorMsg "Not your turn")]) := by
  unfold handleGameMove
  simp only [hs, hcr, hroom, hplay, ne_eq, not_true_eq_false, Bool.false_eq_true, if_false]
  rw [if_pos hturn]

theorem gameMove_invalid (st : ServerState) (sid : String) (sock : Socket)
    (rid : Nat) (room : Room) (move : MoveMsg)
    (hs : mapGet st.sockets sid = some sock)
    (hcr : sock.currentRoom = some rid)
    (hroom : mapGet st.gameRooms rid = some room)
    (hplay : room.state = RoomState.playing)
    (hturn : ¬(room.config.turnBased = true ∧ room.currentTurn ≠ sock.userId))
    (hinv : (processGameMove room (sock.userId.getD "") move).valid = false) :
    handleGameMove st sid move
      = (st, [Emission.direct sid "error" (Payload.errorMsg
          (jsOrStr (processGameMove room (sock.userId.getD "") move).error
            "Invalid move"))]) := by
  unfold handleGameMove
  simp only [hs, hcr, hroom, hplay, ne_eq, not_true_eq_false, Bool.false_eq_true, if_false]
  rw [if_neg hturn]
  simp only [hinv, Bool.false_eq_true, if_false]

/-! ## Claim C5: statement -/

/-- The winning mark's owner: the first `symbols` key carrying it. -/
theorem find_symbols_owner (symbols : List (String × String)) (playerId m : String)
    (hsym : mapGet symbols playerId = some m)
    (huniq : ∀ k v, (k, v) ∈ symbols → v = m → k = playerId) :
    ((symbols.find? fun kv => Cell.mark kv.2 = Cell.mark m).map (·.1)) = some playerId := by
  have hmem := mem_of_mapGet symbols playerId m hsym
  have hsome : (symbols.find? fun kv => Cell.mark kv.2 = Cell.mark m).isSome := by
    rw [List.find?_isSome]
    exact ⟨(playerId, m), hmem, by simp⟩
  obtain ⟨⟨k0, v0⟩, hfind⟩ := Option.isSome_iff_exists.mp hsome
  have hp := List.find?_some hfind
  simp only [decide_eq_true_eq, Cell.mark.injEq] at hp
  have hk0 := huniq k0 v0 (List.mem_of_find?_eq_some hfind) hp
  rw [hfind]
  simp [hk0]

/-- C5: the tic-tac-toe move processor (1) rejects any in-range move
onto an occupied cell as invalid, (2) a rejected move leaves the whole
server state — hence `gameState` and the board — unchanged, and (3)
whenever the placed mark completes one of the 8 scan lines with three
equal non-empty marks (no line being complete beforehand, as in any
reachable game), the result is gameOver with exactly that mark's owner
as winner. -/
theorem C5_tictactoe_processor :
    (∀ (board : List Cell) (symbols : List (String × String)) (playerId : String)
        (move : MoveMsg) (players : List Player),
      0 ≤ move.position → move.position ≤ 8 →
      board.getD move.position.toNat Cell.undef ≠ Cell.null →
      processTicTacToeMove (GameState.ttt board symbols) playerId move players
        = { valid := false, error := some "Invalid position" })
    ∧ (∀ (st : ServerState) (sid : String) (sock : Socket) (rid : Nat) (room : Room)
        (move : MoveMsg),
      mapGet st.sockets sid = some sock →
      sock.currentRoom = some rid →
      mapGet st.gameRooms rid = some room →
      room.state = RoomState.playing →
      ¬(room.config.turnBased = true ∧ room.currentTurn ≠ sock.userId) →
      (processGameMove room (sock.userId.getD "") move).valid = false →
      (handleGameMove st sid move).1 = st)
    ∧ (∀ (board : List Cell) (symbols : List (String × String)) (playerId : String)
        (move : MoveMsg) (players : List Player) (m : String),
      board.length = 9 →
      0 ≤ move.position → move.position ≤ 8 →
      board.getD move.position.toNat Cell.undef = Cell.null →
      mapGet symbols playerId = some m →
      truthyStr m = true →
      (∀ k v, (k, v) ∈ symbols → v = m → k = playerId) →
      (∀ l ∈ tttLines, ¬ tttLineHit board l) →
      (∃ l ∈ tttLines,
          (l.1 = move.position.toNat ∨ l.2.1 = move.position.toNat
            ∨ l.2.2 = move.position.toNat)
          ∧ tttLineHit (board.set move.position.toNat (Cell.mark m)) l) →
      processTicTacToeMove (GameState.ttt board symbols) playerId move players
        = { valid := true
            newState := some (GameState.ttt
              (board.set move.position.toNat (Cell.mark m)) symbols)
            gameOver := true, winner := some playerId, reason := some "win" }) := by
  refine ⟨?_, ?_, ?_⟩
  · intro board symbols playerId move players h0 h8 hocc
    unfold processTicTacToeMove
    simp only []
    rw [if_pos (Or.inr (Or.inr hocc))]
  · intro st sid sock rid room move hs hcr hroom hplay hturn hinv
    rw [gameMove_invalid st sid sock rid room move hs hcr hroom hplay hturn hinv]
  · intro board symbols playerId move players m hlen h0 h8 hcell hsym hm huniq hnone hline
    have hcond : ¬(move.position < 0 ∨ 8 < move.position
        ∨ board.getD move.position.toNat Cell.undef ≠ Cell.null) := by
      push_neg
      exact ⟨h0, h8, hcell⟩
    have hposlt : move.position.toNat < board.length := by
      rw [hlen]
      omega
    have hnb : (board.set move.position.toNat (Cell.mark m)).getD
        move.position.toNat Cell.undef = Cell.mark m := getD_set_self _ _ _ _ hposlt
    have hwin : checkTicTacToeWinner (board.set move.position.toNat (Cell.mark m))
        = Cell.mark m := by
      unfold checkTicTacToeWinner
      apply scanTttLines_eq_mark
      · intro l hl hhit
        by_cases hpos : l.1 = move.position.toNat ∨ l.2.1 = move.position.toNat
            ∨ l.2.2 = move.position.toNat
        · rcases hpos with hp | hp | hp
          · simp only [tttLineVal]
            rw [hp, hnb]
          · have h1 := hhit.2.1
            simp only [tttLineVal] at h1 ⊢
            rw [hp, hnb] at h1
            exact h1
          · have h1 := hhit.2.2
            simp only [tttLineVal] at h1 ⊢
            rw [hp, hnb] at h1
            exact h1
        · push_neg at hpos
          exfalso
          apply hnone l hl
          have e1 : (board.set move.position.toNat (Cell.mark m)).getD l.1 Cell.undef
              = board.getD l.1 Cell.undef :=
            getD_set_ne _ _ _ _ _ (fun hh => hpos.1 hh.symm)
          have e2 : (board.set move.position.toNat (Cell.mark m)).getD l.2.1 Cell.undef
              = board.getD l.2.1 Cell.undef :=
            getD_set_ne _ _ _ _ _ (fun hh => hpos.2.1 hh.symm)
          have e3 : (board.set move.position.toNat (Cell.mark m)).getD l.2.2 Cell.undef
              = board.getD l.2.2 Cell.undef :=
            getD_set_ne _ _ _ _ _ (fun hh => hpos.2.2 hh.symm)
          simp only [tttLineHit, tttLineVal] at hhit ⊢
          rw [e1, e2, e3] at hhit
          exact hhit
      · rcases hline with ⟨l, hl, _, hhit⟩
        exact ⟨l, hl, hhit⟩
    have hmt : truthyCell (Cell.mark m) = true := hm
    unfold processTicTacToeMove
    simp only []
    rw [if_neg hcond]
    simp only [hsym, cellOfLookup, hwin, hmt, if_true,
      find_symbols_owner symbols playerId m hsym huniq]

/-- A board whose cell 0 is occupied. -/
def tttBoardOcc : List Cell :=
  [Cell.mark "X", Cell.null, Cell.null, Cell.null, Cell.null, Cell.null,
   Cell.null, Cell.null, Cell.null]

/-- A board where `X` on cell 2 completes the top row. -/
def tttBoardWin : List Cell :=
  [Cell.mark "X", Cell.mark "X", Cell.null,
   Cell.mark "O", Cell.mark "O", Cell.null,
   Cell.null, Cell.null, Cell.null]

/-- C5, witness: the three parts applied to concrete boards — an
occupied-cell rejection, a rejected out-of-range move leaving
`playingState` untouched, and a top-row completion won by `u1`. -/
theorem C5_tictactoe_processor_witness :
    processTicTacToeMove (GameState.ttt tttBoardOcc [("u1", "X"), ("u2", "O")])
        "u1" { position := 0 } []
        = { valid := false, error := some "Invalid position" }
      ∧ (handleGameMove playingState "s1" { position := 9 }).1 = playingState
      ∧ processTicTacToeMove (GameState.ttt tttBoardWin [("u1", "X"), ("u2", "O")])
          "u1" { position := 2 } []
          = { valid := true
              newState := some (GameState.ttt (tttBoardWin.set 2 (Cell.mark "X"))
                [("u1", "X"), ("u2", "O")])
              gameOver := true, winner := some "u1", reason := some "win" } :=
  ⟨C5_tictactoe_processor.1 tttBoardOcc [("u1", "X"), ("u2", "O")] "u1"
      { position := 0 } [] (by decide) (by decide) (by decide),
   C5_tictactoe_processor.2.1 playingState "s1"
      { userId := some "u1", currentRoom := some 0, rooms := [0] } 0 playingRoom
      { position := 9 } (by decide) (by decide) (by decide) (by decide)
      (by decide) (by decide),
   C5_tictactoe_processor.2.2 tttBoardWin [("u1", "X"), ("u2", "O")] "u1"
      { position := 2 } [] "X" (by decide) (by decide) (by decide) (by decide)
      (by decide) (by decide)
      (by
        intro k v hmem hv
        simp only [List.mem_cons, List.not_mem_nil, or_false, Prod.mk.injEq] at hmem
        rcases hmem with ⟨hk, hv0⟩ | ⟨hk, hv0⟩
        · exact hk
        · exact absurd (hv0 ▸ hv) (by decide))
      (by decide) (by decide)⟩

/-! ## Claim C6: connect-four move processor -/

/-- The in-bounds-and-matching condition tested by `c4Run` at offset
`i` along a direction. -/
def c4RunFullCond (board : List (List Cell)) (row col dr dc : Int) (sym : Cell)
    (i : Int) : Prop :=
  0 ≤ row + dr * i ∧ row + dr * i < 6 ∧ 0 ≤ col + dc * i ∧ col + dc * i < 7
    ∧ cellAt board (row + dr * i) (col + dc * i) = sym

instance (board : List (List Cell)) (row col dr dc : Int) (sym : Cell) (i : Int) :
    Decidable (c4RunFullCond board row col dr dc sym i) :=
  decidable_of_iff
    (0 ≤ row + dr * i ∧ row + dr * i < 6 ∧ 0 ≤ col + dc * i ∧ col + dc * i < 7
      ∧ cellAt board (row + dr * i) (col + dc * i) = sym) Iff.rfl

theorem c4Run_ge (board : List (List Cell)) (row col dr dc : Int) (sym : Cell)
    (pre rest : List Int)
    (h : ∀ i ∈ pre, c4RunFullCond board row col dr dc sym i) :
    pre.length ≤ c4Run board row col dr dc sym (pre ++ rest) := by
  induction pre with
  | nil => exact Nat.zero_le _
  | cons i pre ih =>
    have hc := h i (List.mem_cons_self _ _)
    unfold c4Run
    simp only [List.cons_append]
    rw [if_pos ⟨hc.1, hc.2.1, hc.2.2.1, hc.2.2.2.1, hc.2.2.2.2⟩]
    have := ih (fun j hj => h j (List.mem_cons_of_mem _ hj))
    simp only [List.length_cons]
    omega

/-- Four consecutive cells along `(dr, dc)` through the placed cell
(offsets `k … k+3`, `-3 ≤ k ≤ 0`) force a win verdict. -/
theorem checkConnect4Winner_of_window (board : List (List Cell)) (row col : Int)
    (sym : Cell) (dr dc k : Int)
    (hdir : (dr, dc) ∈ c4Directions)
    (hk0 : -3 ≤ k) (hk1 : k ≤ 0)
    (hwin : ∀ j : Int, k ≤ j → j ≤ k + 3 → c4RunFullCond board row col dr dc sym j) :
    checkConnect4Winner board row col sym = true := by
  have hneg : ∀ (i : Int), 1 ≤ i → i ≤ -k → c4RunFullCond board row col (-dr) (-dc) sym i := by
    intro i h1 h2
    have := hwin (-i) (by omega) (by omega)
    unfold c4RunFullCond at this ⊢
    have e1 : row + -dr * i = row + dr * -i := by ring
    have e2 : col + -dc * i = col + dc * -i := by ring
    rw [e1, e2]
    exact this
  have hpos : ∀ (i : Int), 1 ≤ i → i ≤ k + 3 → c4RunFullCond board row col dr dc sym i :=
    fun i h1 h2 => hwin i (by omega) (by omega)
  have key : ∀ (p q : Nat) (pr pp qr qp : List Int),
      [1, 2, 3] = pp ++ pr → [1, 2, 3] = qp ++ qr →
      pp.length = p → qp.length = q →
      (∀ i ∈ pp, c4RunFullCond board row col dr dc sym i) →
      (∀ i ∈ qp, c4RunFullCond board row col (-dr) (-dc) sym i) →
      p + q = 3 →
      checkConnect4Winner board row col sym = true := by
    intro p q pr pp qr qp hsplit1 hsplit2 hlp hlq hp hq hpq
    unfold checkConnect4Winner
    rw [List.any_eq_true]
    refine ⟨(dr, dc), hdir, ?_⟩
    have r1 : p ≤ c4Run board row col dr dc sym [1, 2, 3] := by
      rw [hsplit1]
      rw [← hlp]
      exact c4Run_ge board row col dr dc sym pp pr hp
    have r2 : q ≤ c4Run board row col (-dr) (-dc) sym [1, 2, 3] := by
      rw [hsplit2]
      rw [← hlq]
      exact c4Run_ge board row col (-dr) (-dc) sym qp qr hq
    simp only [decide_eq_true_eq]
    omega
  interval_cases k
  · exact key 0 3 [1, 2, 3] [] [] [1, 2, 3] rfl rfl rfl rfl (by simp)
      (by
        intro i hi
        fin_cases hi
        · exact hneg 1 (by omega) (by omega)
        · exact hneg 2 (by omega) (by omega)
        · exact hneg 3 (by omega) (by omega)) rfl
  · exact key 1 2 [2, 3] [1] [3] [1, 2] rfl rfl rfl rfl
      (by
        intro i hi
        fin_cases hi
        exact hpos 1 (by omega) (by omega))
      (by
        intro i hi
        fin_cases hi
        · exact hneg 1 (by omega) (by omega)
        · exact hneg 2 (by omega) (by omega)) rfl
  · exact key 2 1 [3] [1, 2] [2, 3] [1] rfl rfl rfl rfl
      (by
        intro i hi
        fin_cases hi
        · exact hpos 1 (by omega) (by omega)
        · exact hpos 2 (by omega) (by omega))
      (by
        intro i hi
        fin_cases hi
        exact hneg 1 (by omega) (by omega)) rfl
  · exact key 3 0 [] [1, 2, 3] [1, 2, 3] [] rfl rfl rfl rfl
      (by
        intro i hi
        fin_cases hi
        · exact hpos 1 (by omega) (by omega)
        · exact hpos 2 (by omega) (by omega)
        · exact hpos 3 (by omega) (by omega))
      (by simp) rfl

/-- C6: the connect-four move processor (1) rejects a drop into a
column whose top cell is occupied (under the gravity invariant every
reachable board satisfies) as `Column is full`, (2) a rejected move
leaves the whole server state — hence `gameState.board` — unchanged,
and (3) any drop that yields four of the mover's tokens in a row in
one of the four axis directions through the placed cell ends the game
with the mover as winner. -/
theorem C6_connect4_processor :
    (∀ (board : List (List Cell)) (symbols : List (String × String)) (playerId : String)
        (move : MoveMsg) (players : List Player),
      0 ≤ move.column → move.column ≤ 6 →
      (∀ r : Nat, r < 5 →
        (board.getD r []).getD move.column.toNat Cell.undef ≠ Cell.null →
        (board.getD (r + 1) []).getD move.column.toNat Cell.undef ≠ Cell.null) →
      (board.getD 0 []).getD move.column.toNat Cell.undef ≠ Cell.null →
      processConnect4Move (GameState.c4 board symbols) playerId move players
        = { valid := false, error := some "Column is full" })
    ∧ (∀ (st : ServerState) (sid : String) (sock : Socket) (rid : Nat) (room : Room)
        (move : MoveMsg),
      mapGet st.sockets sid = some sock →
      sock.currentRoom = some rid →
      mapGet st.gameRooms rid = some room →
      room.state = RoomState.playing →
      ¬(room.config.turnBased = true ∧ room.currentTurn ≠ sock.userId) →
      (processGameMove room (sock.userId.getD "") move).valid = false →
      (handleGameMove st sid move).1 = st)
    ∧ (∀ (board : List (List Cell)) (symbols : List (String × String)) (playerId : String)
        (move : MoveMsg) (players : List Player) (sym : String) (row : Nat)
        (dr dc k : Int),
      0 ≤ move.column → move.column ≤ 6 →
      findDropRow board move.column = some row →
      mapGet symbols playerId = some sym →
      (dr, dc) ∈ c4Directions →
      -3 ≤ k → k ≤ 0 →
      (∀ j : Int, k ≤ j → j ≤ k + 3 →
        c4RunFullCond (setCell board row move.column.toNat (Cell.mark sym))
          (Int.ofNat row) move.column dr dc (Cell.mark sym) j) →
      processConnect4Move (GameState.c4 board symbols) playerId move players
        = { valid := true
            newState := some (GameState.c4
              (setCell board row move.column.toNat (Cell.mark sym)) symbols)
            gameOver := true, winner := some playerId, reason := some "win" }) := by
  refine ⟨?_, ?_, ?_⟩
  · intro board symbols playerId move players h0 h6 hgrav htop
    have o1 := hgrav 0 (by omega) htop
    have o2 := hgrav 1 (by omega) o1
    have o3 := hgrav 2 (by omega) o2
    have o4 := hgrav 3 (by omega) o3
    have o5 := hgrav 4 (by omega) o4
    have hnone : findDropRow board move.column = none := by
      unfold findDropRow
      simp only [findDropRowAux]
      rw [if_neg o5, if_neg o4, if_neg o3, if_neg o2, if_neg o1, if_neg htop]
    have hcond : ¬(move.column < 0 ∨ 6 < move.column) := by omega
    unfold processConnect4Move
    simp only []
    rw [if_neg hcond, hnone]
  · intro st sid sock rid room move hs hcr hroom hplay hturn hinv
    rw [gameMove_invalid st sid sock rid room move hs hcr hroom hplay hturn hinv]
  · intro board symbols playerId move players sym row dr dc k h0 h6 hdrop hsym hdir
      hk0 hk1 hwin
    have hcw := checkConnect4Winner_of_window
      (setCell board row move.column.toNat (Cell.mark sym))
      (Int.ofNat row) move.column (Cell.mark sym) dr dc k hdir hk0 hk1 hwin
    have hcond : ¬(move.column < 0 ∨ 6 < move.column) := by omega
    unfold processConnect4Move
    simp only []
    rw [if_neg hcond, hdrop]
    simp only [hsym, cellOfLookup, hcw, if_true]

/-- A board whose column 0 is completely full. -/
def c4BoardFull : List (List Cell) :=
  List.replicate 6 (Cell.mark "red" :: List.replicate 6 Cell.null)

/-- A board with three red tokens stacked in column 3 (rows 5, 4, 3). -/
def c4BoardWin : List (List Cell) :=
  [List.replicate 7 Cell.null,
   List.replicate 7 Cell.null,
   List.replicate 7 Cell.null,
   [Cell.null, Cell.null, Cell.null, Cell.mark "red", Cell.null, Cell.null, Cell.null],
   [Cell.null, Cell.null, Cell.null, Cell.mark "red", Cell.null, Cell.null, Cell.null],
   [Cell.null, Cell.null, Cell.null, Cell.mark "red", Cell.null, Cell.null, Cell.null]]

/-- C6, witness: a drop into full column 0 is rejected; a rejected
move leaves `playingState` untouched; a fourth red token dropped into
column 3 wins vertically for `u1`. -/
theorem C6_connect4_processor_witness :
    processConnect4Move (GameState.c4 c4BoardFull [("u1", "red"), ("u2", "yellow")])
        "u1" { column := 0 } []
        = { valid := false, error := some "Column is full" }
      ∧ (handleGameMove playingState "s1" { position := 9 }).1 = playingState
      ∧ processConnect4Move (GameState.c4 c4BoardWin [("u1", "red"), ("u2", "yellow")])
          "u1" { column := 3 } []
          = { valid := true
              newState := some (GameState.c4 (setCell c4BoardWin 2 3 (Cell.mark "red"))
                [("u1", "red"), ("u2", "yellow")])
              gameOver := true, winner := some "u1", reason := some "win" } :=
  ⟨C6_connect4_processor.1 c4BoardFull [("u1", "red"), ("u2", "yellow")] "u1"
      { column := 0 } [] (by decide) (by decide)
      (by intro r hr; interval_cases r <;> decide) (by decide),
   C6_connect4_processor.2.1 playingState "s1"
      { userId := some "u1", currentRoom := some 0, rooms := [0] } 0 playingRoom
      { position := 9 } (by decide) (by decide) (by decide) (by decide)
      (by decide) (by decide),
   C6_connect4_processor.2.2 c4BoardWin [("u1", "red"), ("u2", "yellow")] "u1"
      { column := 3 } [] "red" 2 1 0 0 (by decide) (by decide) (by decide) (by decide)
      (by decide) (by decide) (by decide)
      (by intro j h1 h2; interval_cases j <;> decide)⟩

/-! ## Claim C7: rock-paper-scissors rounds -/

/-- A trace whose last round ends the match 2-0: the final round's
choices stay in the state. -/
def rpsEndTrace : List (String × ClientEvent) :=
  [("s1", ClientEvent.connect), ("s2", ClientEvent.connect),
   ("s1", ClientEvent.auth (some "u1") "t"), ("s2", ClientEvent.auth (some "u2") "t"),
   ("s1", ClientEvent.matchmakingFind "rock-paper-scissors"),
   ("s2", ClientEvent.matchmakingFind "rock-paper-scissors"),
   ("s1", ClientEvent.gameMove { choice := "rock" }),
   ("s2", ClientEvent.gameMove { choice := "scissors" }),
   ("s1", ClientEvent.gameMove { choice := "rock" }),
   ("s2", ClientEvent.gameMove { choice := "scissors" })]

/-- A trace reaching a tied round at the round limit (round 3). -/
def rpsTieTrace : List (String × ClientEvent) :=
  [("s1", ClientEvent.connect), ("s2", ClientEvent.connect),
   ("s1", ClientEvent.auth (some "u1") "t"), ("s2", ClientEvent.auth (some "u2") "t"),
   ("s1", ClientEvent.matchmakingFind "rock-paper-scissors"),
   ("s2", ClientEvent.matchmakingFind "rock-paper-scissors"),
   ("s1", ClientEvent.gameMove { choice := "rock" }),
   ("s2", ClientEvent.gameMove { choice := "scissors" }),
   ("s1", ClientEvent.gameMove { choice := "rock" }),
   ("s2", ClientEvent.gameMove { choice := "paper" }),
   ("s1", ClientEvent.gameMove { choice := "rock" }),
   ("s2", ClientEvent.gameMove { choice := "rock" })]

/-- C7, counterexample: after `rpsEndTrace` the final (game-ending)
round leaves both submitted choices in `choices` — not cleared; and
after `rpsTieTrace` the tied round at the round limit leaves the round
counter at 3 — not incremented (the scores 1-1 are unchanged, as the
claim says). -/
theorem C7_counterexample :
    ((mapGet (runTrace initialState rpsEndTrace).gameRooms 0).map Room.gameState
        = some (some (GameState.rps [("u1", "rock"), ("u2", "scissors")] 2
            [("u1", 2), ("u2", 0)] 3)))
      ∧ ((mapGet (runTrace initialState rpsTieTrace).gameRooms 0).map Room.gameState
          = some (some (GameState.rps [("u1", "rock"), ("u2", "rock")] 3
              [("u1", 1), ("u2", 1)] 3))) := by
  constructor
  · decide
  · decide

/-- C7 (amended): when a submission completes a round, the move is
valid; a tied round leaves the scores untouched; and the round state
is reset — `choices` cleared and the counter incremented — exactly
when the round does not end the game, while a game-ending round
retains both choices and the counter. -/
theorem C7_rps_round (choices : List (String × String)) (round : Nat)
    (scores : List (String × Int)) (maxRounds : Nat) (playerId choice : String)
    (p1 p2 : Player) (tl : List Player) (players : List Player)
    (hps : players = p1 :: p2 :: tl)
    (hvalid : choice = "rock" ∨ choice = "paper" ∨ choice = "scissors")
    (hlen : (mapSet choices playerId choice).length = 2) :
    let choices1 := mapSet choices playerId choice
    let c1 := mapGet choices1 p1.id
    let c2 := mapGet choices1 p2.id
    let roundWinner : Option String :=
      if c1 ≠ c2 then
        if (c1 = some "rock" ∧ c2 = some "scissors")
            ∨ (c1 = some "paper" ∧ c2 = some "rock")
            ∨ (c1 = some "scissors" ∧ c2 = some "paper") then some p1.id
        else some p2.id
      else none
    let scores1 := match roundWinner with
      | some rw => mapSet scores rw ((mapGet scores rw).getD 0 + 1)
      | none => scores
    let res := processRPSMove (GameState.rps choices round scores maxRounds)
      playerId { choice := choice } players
    res.valid = true
      ∧ (c1 = c2 → scores1 = scores)
      ∧ (res.gameOver = false →
          res.newState = some (GameState.rps [] (round + 1) scores1 maxRounds))
      ∧ (res.gameOver = true →
          res.newState = some (GameState.rps choices1 round scores1 maxRounds)) := by
  intro choices1 c1 c2 roundWinner scores1 res
  have htie : c1 = c2 → scores1 = scores := by
    intro h
    unfold_let scores1 roundWinner
    rw [if_neg (by simpa using h)]
  refine ⟨?_, htie, ?_, ?_⟩ <;>
  · unfold_let res scores1 roundWinner c1 c2 choices1
    unfold processRPSMove
    simp only []
    rw [if_neg (not_not_intro hvalid), hps]
    simp only [hlen, if_pos]
    repeat' split
    all_goals first
      | rfl
      | (intro h; rfl)
      | (intro h; exact absurd h (by simp))

/-- C7, witness: `u2` answers `scissors` to `u1`'s `rock` in round 1
of 3 — the round resolves, scores move to 1-0, choices are cleared and
the counter advances. -/
theorem C7_rps_round_witness :
    (processRPSMove (GameState.rps [("u1", "rock")] 1 [("u1", 0), ("u2", 0)] 3)
        "u2" { choice := "scissors" }
        [{ id := "u1", ready := true }, { id := "u2", ready := true }]).valid = true
      ∧ (processRPSMove (GameState.rps [("u1", "rock")] 1 [("u1", 0), ("u2", 0)] 3)
          "u2" { choice := "scissors" }
          [{ id := "u1", ready := true }, { id := "u2", ready := true }]).newState
          = some (GameState.rps [] 2 [("u1", 1), ("u2", 0)] 3) := by
  have h := C7_rps_round [("u1", "rock")] 1 [("u1", 0), ("u2", 0)] 3 "u2" "scissors"
    { id := "u1", ready := true } { id := "u2", ready := true } [] _ rfl
    (Or.inr (Or.inr rfl)) (by decide)
  exact ⟨h.1, (h.2.2.1 (by decide)).trans (by decide)⟩

/-! ## Claim C8: rejected moves are local -/

/-- C8: a `game:move` on a playing room that is rejected — not the
actor's turn, or any processor rejection (out-of-range cell or column,
occupied cell, full column, unrecognized choice) — leaves the entire
server state (hence the room's `gameState`, `currentTurn` and `state`)
exactly as it was and sends exactly one `error` event to the
originating connection only. -/
theorem C8_rejected_move_is_local (st : ServerState) (sid : String) (sock : Socket)
    (rid : Nat) (room : Room) (move : MoveMsg)
    (hs : mapGet st.sockets sid = some sock)
    (hcr : sock.currentRoom = some rid)
    (hroom : mapGet st.gameRooms rid = some room)
    (hplay : room.state = RoomState.playing)
    (hrej : (room.config.turnBased = true ∧ room.currentTurn ≠ sock.userId)
        ∨ (¬(room.config.turnBased = true ∧ room.currentTurn ≠ sock.userId)
            ∧ (processGameMove room (sock.userId.getD "") move).valid = false)) :
    ∃ msg, handleGameMove st sid move
        = (st, [Emission.direct sid "error" (Payload.errorMsg msg)]) := by
  rcases hrej with hturn | ⟨hturn, hinv⟩
  · exact ⟨"Not your turn",
      gameMove_not_your_turn st sid sock rid room move hs hcr hroom hplay hturn⟩
  · exact ⟨_, gameMove_invalid st sid sock rid room move hs hcr hroom hplay hturn hinv⟩

/-- C8, witness: `u2` moving out of turn in `playingState` changes
nothing and only `s2` hears an error. -/
theorem C8_rejected_move_is_local_witness :
    ∃ msg, handleGameMove playingState "s2" { position := 4 }
        = (playingState, [Emission.direct "s2" "error" (Payload.errorMsg msg)]) :=
  C8_rejected_move_is_local playingState "s2"
    { userId := some "u2", currentRoom := some 0, rooms := [0] } 0 playingRoom
    { position := 4 } (by decide) (by decide) (by decide) (by decide)
    (Or.inl (by decide))

/-! ## Claim C9: matchmaking -/

/-- C9: an authenticated `matchmaking:find` with a registered game id
(1) joins the first public waiting under-capacity room with that game,
appending the requester marked ready; if the join reaches quorum every
occupant is marked ready and the room starts playing immediately,
otherwise it stays waiting; (2) with no such room, a fresh public
waiting room is created with the requester pre-marked ready. -/
theorem C9_matchmaking_find (st : ServerState) (sid : String) (sock : Socket)
    (u gameId : String) (cfg : GameConfig)
    (hs : mapGet st.sockets sid = some sock)
    (hu : sock.userId = some u)
    (hut : truthyStr u = true)
    (hcfg : GAME_CONFIGS gameId = some cfg) :
    (∀ (rid : Nat) (room : Room),
      findMatchRoom st.gameRooms gameId = some (rid, room) →
      ∃ room',
        mapGet ((handleMatchmakingFind st sid gameId).1).gameRooms rid = some room'
          ∧ (room.config.minPlayers ≤ room.players.length + 1 →
              room'.players = (room.players ++ [({ id := u, ready := true } : Player)]).map
                  (fun p : Player => ({ p with ready := true } : Player))
                ∧ room'.state = RoomState.playing
                ∧ ∀ p ∈ room'.players, p.ready = true)
          ∧ (¬ room.config.minPlayers ≤ room.players.length + 1 →
              room'.players = room.players ++ [{ id := u, ready := true }]
                ∧ room'.state = RoomState.waiting))
    ∧ (findMatchRoom st.gameRooms gameId = none →
        mapGet st.gameRooms st.nextRoomId = none →
        ∃ room',
          mapGet ((handleMatchmakingFind st sid gameId).1).gameRooms st.nextRoomId
              = some room'
            ∧ room'.players = [{ id := u, ready := true }]
            ∧ room'.isPrivate = false
            ∧ room'.state = RoomState.waiting) := by
  have htr : truthyOpt (some u) = true := by simpa [truthyOpt] using hut
  constructor
  · intro rid room hfind
    have hpred : matchablePred gameId room = true := by
      simpa using List.find?_some hfind
    have hwait : room.state = RoomState.waiting := by
      unfold matchablePred at hpred
      simp only [decide_eq_true_eq] at hpred
      exact hpred.2.2.1
    unfold handleMatchmakingFind
    simp only [hs, hu, htr, not_true, Bool.not_eq_true, reduceCtorEq, if_false,
      Option.getD_some, hfind]
    by_cases hq : room.config.minPlayers ≤ room.players.length + 1
    · rw [if_pos (by simpa using hq)]
      unfold startGame
      simp only []
      refine ⟨_, mapGet_mapSet_self _ _ _, fun _ => ⟨rfl, rfl, ?_⟩,
        fun hc => absurd hq hc⟩
      intro p hp
      simp only [List.mem_map] at hp
      obtain ⟨q, _, hq2⟩ := hp
      rw [← hq2]
    · rw [if_neg (by simpa using hq)]
      exact ⟨_, mapGet_mapSet_self _ _ _, fun hc => absurd hc hq,
        fun _ => ⟨rfl, hwait⟩⟩
  · intro hfind hfresh
    unfold handleMatchmakingFind
    simp only [hs, hu, htr, not_true, Bool.not_eq_true, reduceCtorEq, if_false,
      Option.getD_some, hfind, hcfg]
    refine ⟨{ id := st.nextRoomId, gameId := gameId, hostId := u
              players := [{ id := u, ready := true }], state := RoomState.waiting
              isPrivate := false, gameState := none, currentTurn := none
              config := cfg }, ?_, rfl, rfl, rfl⟩
    rw [mapGet_append_none _ _ _ hfresh]
    simp [mapGet]

/-- A public waiting one-player room open for matchmaking. -/
def mmRoom : Room :=
  { id := 0, gameId := "snake", hostId := "u1"
    players := [{ id := "u1", ready := true }]
    state := RoomState.waiting, isPrivate := false
    gameState := none, currentTurn := none, config := scoreCfg }

/-- A server with `mmRoom` waiting and a second, unbound socket. -/
def mmState : ServerState :=
  { gameRooms := [(0, mmRoom)]
    sockets := [("s1", { userId := some "u1", currentRoom := some 0, rooms := [0] }),
                ("s2", { userId := some "u2", currentRoom := none, rooms := [] })]
    socketPlayers := [("s1", "u1"), ("s2", "u2")]
    playerSockets := [("u1", "s1"), ("u2", "s2")]
    nextRoomId := 1 }

/-- C9, witness: `u2` finds the waiting `mmRoom` (quorum reached: all
ready, playing); in `demoState` (only a private room) a `snake` search
creates a fresh public room instead. -/
theorem C9_matchmaking_find_witness :
    (∃ room',
      mapGet ((handleMatchmakingFind mmState "s2" "snake").1).gameRooms 0 = some room'
        ∧ (mmRoom.config.minPlayers ≤ mmRoom.players.length + 1 →
            room'.players = (mmRoom.players ++ [({ id := "u2", ready := true } : Player)]).map
                (fun p : Player => ({ p with ready := true } : Player))
              ∧ room'.state = RoomState.playing
              ∧ ∀ p ∈ room'.players, p.ready = true)
        ∧ (¬ mmRoom.config.minPlayers ≤ mmRoom.players.length + 1 →
            room'.players = mmRoom.players ++ [{ id := "u2", ready := true }]
              ∧ room'.state = RoomState.waiting))
      ∧ (∃ room',
          mapGet ((handleMatchmakingFind demoState "s1" "snake").1).gameRooms
              demoState.nextRoomId = some room'
            ∧ room'.players = [{ id := "u1", ready := true }]
            ∧ room'.isPrivate = false
            ∧ room'.state = RoomState.waiting) :=
  ⟨(C9_matchmaking_find mmState "s2"
      { userId := some "u2", currentRoom := none, rooms := [] } "u2" "snake"
      (scoreCfg) (by decide) (by decide) (by decide) (by decide)).1 0 mmRoom (by decide),
   (C9_matchmaking_find demoState "s1"
      { userId := some "u1", currentRoom := some 0, rooms := [0] } "u1" "snake"
      (scoreCfg) (by decide) (by decide) (by decide) (by decide)).2 (by decide) (by decide)⟩

/-- C2, witness: creating a second room from `demoState` keeps `u1`
inside `demoRoom` while also seating it in the new room; and a
`matchmaking:find` (a binding operation) into `mmRoom` keeps `u1`
seated there too. -/
theorem C2_bind_keeps_memberships_witness :
    (mapGet ((handleRoomCreate demoState "s1" "snake" true).1).gameRooms 0 = some demoRoom
      ∧ ∃ newRoom,
          mapGet ((handleRoomCreate demoState "s1" "snake" true).1).gameRooms
              demoState.nextRoomId = some newRoom
            ∧ newRoom.players = [{ id := "u1", ready := false }])
      ∧ (∃ r2, mapGet ((handleEvent mmState "s2"
            (ClientEvent.matchmakingFind "snake")).1).gameRooms 0 = some r2
          ∧ ∃ p ∈ r2.players, p.id = "u1") :=
  ⟨C2_bind_keeps_memberships.1 demoState "s1" "snake" true
      { userId := some "u1", currentRoom := some 0, rooms := [0] } "u1" 0 demoRoom
      (scoreCfg) (by decide) (by decide) (by decide) (by decide) (by decide)
      ⟨{ id := "u1", ready := false }, by decide, by decide⟩ (by decide) (by decide),
   C2_bind_keeps_memberships.2 mmState "s2" (ClientEvent.matchmakingFind "snake") 0
      mmRoom "u1" (by decide) (by decide) (by decide) (by decide) (by decide)
      ⟨{ id := "u1", ready := true }, by decide, by decide⟩⟩

/-! ## Claim C10: falsy auth is silent -/

/-- C10: an `auth` event with an absent or falsy `userId` emits nothing
at all and changes nothing; a connection whose identity is still unset
then gets `Not authenticated` errors from `room:create`, `room:join`
and `matchmaking:find`. -/
theorem C10_falsy_auth_silent (st : ServerState) (sid : String) (sock : Socket)
    (userId : Option String) (token : String)
    (hs : mapGet st.sockets sid = some sock)
    (hfalsy : truthyOpt userId = false) :
    handleEvent st sid (ClientEvent.auth userId token) = (st, [])
      ∧ (sock.userId = none →
          (∀ gameId isPrivate, handleRoomCreate st sid gameId isPrivate
              = (st, [Emission.direct sid "error" (Payload.errorMsg "Not authenticated")]))
            ∧ (∀ roomId, handleRoomJoin st sid roomId
                = (st, [Emission.direct sid "error" (Payload.errorMsg "Not authenticated")]))
            ∧ (∀ gameId, handleMatchmakingFind st sid gameId
                = (st, [Emission.direct sid "error"
                    (Payload.errorMsg "Not authenticated")]))) := by
  constructor
  · simp only [handleEvent]
    unfold handleAuth
    rw [hs]
    match userId, hfalsy with
    | none, _ => rfl
    | some u, hf =>
      simp only [truthyOpt] at hf
      simp only [hf, Bool.false_eq_true, if_false]
  · intro hnone
    have hne : truthyOpt sock.userId = false := by rw [hnone]; rfl
    refine ⟨?_, ?_, ?_⟩
    · intro gameId isPrivate
      unfold handleRoomCreate
      simp only [hs]
      rw [if_pos (by simp [hne])]
    · intro roomId
      unfold handleRoomJoin
      simp only [hs]
      rw [if_pos (by simp [hne])]
    · intro gameId
      unfold handleMatchmakingFind
      simp only [hs]
      rw [if_pos (by simp [hne])]

/-- A server with one connected, never-authenticated socket. -/
def unauthState : ServerState := { sockets := [("s3", {})] }

/-- C10, witness: `auth` with the falsy identity `""` on `unauthState`
emits nothing, and a following `room:create` fails Not authenticated. -/
theorem C10_falsy_auth_silent_witness :
    handleEvent unauthState "s3" (ClientEvent.auth (some "") "t") = (unauthState, [])
      ∧ handleRoomCreate unauthState "s3" "snake" true
          = (unauthState,
             [Emission.direct "s3" "error" (Payload.errorMsg "Not authenticated")]) :=
  have h := C10_falsy_auth_silent unauthState "s3" {} (some "") "t" (by decide) (by decide)
  ⟨h.1, (h.2 rfl).1 "snake" true⟩

end GameTok
